import Mathlib

/-!
Verification of the easy-fs on-disk layout engine (`src/easy-fs/src/layout.rs`).

The Rust code is shallowly embedded as executable Lean functions:

* machine integers (`u32`/`usize`) become `Nat`; every arithmetic site of the
  source stays within its machine range on the domains considered, and the
  source's `a - b` subtractions are all guarded so natural truncated
  subtraction agrees with the machine result;
* the block device / block cache is a flat store `Disk := Nat → Nat → Nat`
  mapping a block id and a pointer-slot index to the stored `u32` (the code
  always accesses index blocks through `get_block_cache(..).read/modify` with
  a typed `IndirectBlock` view, so a per-id array of 128 pointer slots is the
  exact observable state).  Data-block bytes live in a second facet
  `DataDisk := Nat → Nat → Nat` (block id → byte offset → byte), matching the
  typed `DataBlock` view used by `read_at`/`write_at`;
* the `Vec<u32>` iterator handed to `increase_size` becomes a `List Nat`
  consumed from the front; `Iterator::next().unwrap()` on an exhausted
  iterator (a Rust panic) is modelled as `none`, as are the `assert!`
  failures in `write_at` and `clear_size` and the unguarded
  `indirect3[last / INODE_INDIRECT2_COUNT]` array indexing of
  `get_block_id`;
* each `while`/`for` loop is compiled to a structurally recursive function
  with an explicit iteration budget (`fuel`).  The source's loop guard is
  kept verbatim inside the body; the budget passed at every call site is a
  static bound strictly larger than the number of iterations the guard
  permits (direct tier: 27 slots, an indirect block: 128 slots, the
  indirect2 tier: 16384 leaves), so the budget case is never reached and the
  functions compute exactly what the loops do.
-/

namespace EasyFS

/-- `BLOCK_SZ`: the filesystem-wide block size constant (512 bytes, per the
spec and the `easy-fs` crate; `layout.rs` imports it from the crate root). -/
def BLOCK_SZ : Nat := 512

/-- The max number of direct inodes (`layout.rs` line 9). -/
def INODE_DIRECT_COUNT : Nat := 27

/-- The max length of inode name (`layout.rs` line 11). -/
def NAME_LENGTH_LIMIT : Nat := 27

/-- Pointers per indirect block: `BLOCK_SZ / 4` = 128. -/
def INODE_INDIRECT1_COUNT : Nat := BLOCK_SZ / 4

/-- Capacity of the indirect2 tier: 128 * 128. -/
def INODE_INDIRECT2_COUNT : Nat := INODE_INDIRECT1_COUNT * INODE_INDIRECT1_COUNT

/-- Capacity of the indirect3 tier: 128^3. -/
def INODE_INDIRECT3_COUNT : Nat := INODE_INDIRECT2_COUNT * INODE_INDIRECT1_COUNT

/-- Upper bound of direct inode index. -/
def DIRECT_BOUND : Nat := INODE_DIRECT_COUNT

/-- Upper bound of indirect1 inode index: 27 + 128 = 155. -/
def INDIRECT1_BOUND : Nat := DIRECT_BOUND + INODE_INDIRECT1_COUNT

/-- Upper bound of indirect2 inode index: 155 + 16384 = 16539. -/
def INDIRECT2_BOUND : Nat := INDIRECT1_BOUND + INODE_INDIRECT2_COUNT

/-- The pointer-slot facet of the block store: block id → slot → u32. -/
def Disk : Type := Nat → Nat → Nat

/-- The data-byte facet of the block store: block id → byte offset → byte. -/
def DataDisk : Type := Nat → Nat → Nat

/-- Write one pointer slot of one block. -/
def updSlot (d : Disk) (b i v : Nat) : Disk :=
  fun b' i' => if b' = b ∧ i' = i then v else d b' i'

/-- `DiskInode` (`layout.rs` lines 83-91): size, 27 direct pointers, three
indirect roots and a type tag.  The `direct` array is a function total on
`Nat`; the code only ever touches indices `< 27`. -/
structure DiskInode where
  size : Nat
  direct : Nat → Nat
  indirect1 : Nat
  indirect2 : Nat
  indirect3 : Nat
  isDirectory : Bool

/-- `DiskInode::initialize` with a given type tag: the empty, zero-size
state (`layout.rs` lines 96-103). -/
def DiskInode.initialized (isDir : Bool) : DiskInode :=
  { size := 0, direct := fun _ => 0, indirect1 := 0, indirect2 := 0,
    indirect3 := 0, isDirectory := isDir }

/-- `DiskInode::_data_blocks`: `(size + BLOCK_SZ - 1) / BLOCK_SZ`. -/
def _data_blocks (size : Nat) : Nat := (size + BLOCK_SZ - 1) / BLOCK_SZ

/-- The body of `DiskInode::total_blocks` expressed on the data-block count
(the source computes `data_blocks = _data_blocks(size)` first and only uses
`data_blocks` afterwards). -/
def totalBlocksFromData (data_blocks : Nat) : Nat :=
  let total := data_blocks
  -- indirect1
  let total := if data_blocks > INODE_DIRECT_COUNT then total + 1 else total
  -- indirect2
  let total :=
    if data_blocks > INDIRECT1_BOUND then
      let level2_extra :=
        (data_blocks - INDIRECT1_BOUND + INODE_INDIRECT1_COUNT - 1) / INODE_INDIRECT1_COUNT
      total + 1 + min level2_extra INODE_INDIRECT1_COUNT
    else total
  -- indirect3
  let total :=
    if data_blocks > INDIRECT2_BOUND then
      let remaining := data_blocks - INDIRECT2_BOUND
      let level2_extra := (remaining + INODE_INDIRECT2_COUNT - 1) / INODE_INDIRECT2_COUNT
      let level3_extra := (remaining + INODE_INDIRECT1_COUNT - 1) / INODE_INDIRECT1_COUNT
      total + 1 + level2_extra + level3_extra
    else total
  total

/-- `DiskInode::total_blocks` (`layout.rs` lines 121-144). -/
def totalBlocks (size : Nat) : Nat := totalBlocksFromData (_data_blocks size)

/-- `DiskInode::blocks_num_needed` (`layout.rs` lines 146-149).  The
`assert!(new_size >= self.size)` failure is modelled as `none`. -/
def blocksNumNeeded (st : DiskInode) (newSize : Nat) : Option Nat :=
  if st.size ≤ newSize then some (totalBlocks newSize - totalBlocks st.size) else none

/-- `DiskInode::get_block_id` (`layout.rs` lines 151-191): lookup of the
physical block id of logical block `innerId` through the pointer tree.
In the indirect3 branch the source indexes
`indirect3[last / INODE_INDIRECT2_COUNT]` into a `[u32; 128]` block view
with no range check: for `last / INODE_INDIRECT2_COUNT >= 128` (logical
block at or past `27 + 128 + 128 ^ 2 + 128 ^ 3`) that indexing panics —
modelled as `none`.  Every other branch index is bounded by its guard
(`direct` has 27 slots, an indirect block 128, `last % 16384 / 128` and the
`% 128` remainders are below 128). -/
def getBlockId (st : DiskInode) (d : Disk) (innerId : Nat) : Option Nat :=
  if innerId < INODE_DIRECT_COUNT then some (st.direct innerId)
  else if innerId < INDIRECT1_BOUND then
    some (d st.indirect1 (innerId - INODE_DIRECT_COUNT))
  else if innerId < INDIRECT2_BOUND then
    some (d (d st.indirect2 ((innerId - INDIRECT1_BOUND) / INODE_INDIRECT1_COUNT))
      ((innerId - INDIRECT1_BOUND) % INODE_INDIRECT1_COUNT))
  else if (innerId - INDIRECT2_BOUND) / INODE_INDIRECT2_COUNT < INODE_INDIRECT1_COUNT then
    some (d
      (d (d st.indirect3 ((innerId - INDIRECT2_BOUND) / INODE_INDIRECT2_COUNT))
        ((innerId - INDIRECT2_BOUND) % INODE_INDIRECT2_COUNT / INODE_INDIRECT1_COUNT))
      ((innerId - INDIRECT2_BOUND) % INODE_INDIRECT2_COUNT % INODE_INDIRECT1_COUNT))
  else none

/-- `DiskInode::decompose2`: `(id / 128, id % 128)`. -/
def decompose2 (id : Nat) : Nat × Nat :=
  (id / INODE_INDIRECT1_COUNT, id % INODE_INDIRECT1_COUNT)

/-- `Iterator::next` on the flat block-id sequence. -/
def nextBlock : List Nat → Option (Nat × List Nat)
  | [] => none
  | b :: bs => some (b, bs)

/-- The `// fill direct` loop of `increase_size` (`layout.rs` lines 208-211):
`while current_blocks < total_blocks.min(INODE_DIRECT_COUNT) { direct[cur] =
next().unwrap(); cur += 1 }`.  Returns the updated `direct` array, the final
`current_blocks` and the remaining id sequence. -/
def fillDirect (total_blocks : Nat) :
    Nat → Nat → (Nat → Nat) → List Nat → Option ((Nat → Nat) × Nat × List Nat)
  | 0, cur, dir, bs => some (dir, cur, bs)
  | fuel + 1, cur, dir, bs =>
    if cur < min total_blocks INODE_DIRECT_COUNT then
      match nextBlock bs with
      | none => none
      | some (b, bs) =>
        fillDirect total_blocks fuel (cur + 1) (fun i => if i = cur then b else dir i) bs
    else some (dir, cur, bs)

/-- The `// fill indirect1` loop of `increase_size` (`layout.rs` lines
222-230): writes consecutive slots of the block `blk` (the indirect1 root)
while `current_blocks < total_blocks.min(INODE_INDIRECT1_COUNT)`. -/
def fillIndirect1 (total_blocks blk : Nat) :
    Nat → Nat → Disk → List Nat → Option (Disk × Nat × List Nat)
  | 0, cur, d, bs => some (d, cur, bs)
  | fuel + 1, cur, d, bs =>
    if cur < min total_blocks INODE_INDIRECT1_COUNT then
      match nextBlock bs with
      | none => none
      | some (b, bs) => fillIndirect1 total_blocks blk fuel (cur + 1) (updSlot d blk cur b) bs
    else some (d, cur, bs)

/-- The `// fill indirect2 from (a0, b0) -> (a1, b1)` loop of `increase_size`
(`layout.rs` lines 241-266).  `blk` is the indirect2 root; when `b0 == 0` a
fresh id is installed as `indirect2[a0]` before the leaf id is written at
slot `b0` of that sub-block.  `cur` mirrors the source's `current_blocks`
counter, incremented once per leaf. -/
def fillIndirect2 (a1 b1 blk : Nat) :
    Nat → Nat → Nat → Nat → Disk → List Nat → Option (Disk × Nat × List Nat)
  | 0, _a0, _b0, cur, d, bs => some (d, cur, bs)
  | fuel + 1, a0, b0, cur, d, bs =>
    if a0 < a1 ∨ (a0 = a1 ∧ b0 < b1) then
      match (if b0 = 0 then
               match nextBlock bs with
               | none => none
               | some (b, bs) => some (updSlot d blk a0 b, bs)
             else some (d, bs)) with
      | none => none
      | some (d, bs) =>
        match nextBlock bs with
        | none => none
        | some (b, bs) =>
          let d := updSlot d (d blk a0) b0 b
          if b0 + 1 = INODE_INDIRECT1_COUNT then
            fillIndirect2 a1 b1 blk fuel (a0 + 1) 0 (cur + 1) d bs
          else
            fillIndirect2 a1 b1 blk fuel a0 (b0 + 1) (cur + 1) d bs
    else some (d, cur, bs)

/-- The `while i < INODE_INDIRECT1_COUNT && cur_leaf < dst_leaf` loop inside
`DiskInode::build_tree` (`layout.rs` lines 350-366), abstracted over the
recursive call on the child (`child d bs block_id cur_leaf`).  The iteration
budget `fuel` stands for `INODE_INDIRECT1_COUNT - i`.  When
`cur_leaf >= src_leaf` the slot `i` of `blockId` receives a fresh id before
the recursion reads it back (`indirect_block[i]`). -/
def buildTreeStep (child : Disk → List Nat → Nat → Nat → Option (Disk × Nat × List Nat))
    (src_leaf dst_leaf blockId : Nat) :
    Nat → Nat → Nat → Disk → List Nat → Option (Disk × Nat × List Nat)
  | 0, _i, cur_leaf, d, bs => some (d, cur_leaf, bs)
  | fuel + 1, i, cur_leaf, d, bs =>
    if cur_leaf < dst_leaf then
      match (if src_leaf ≤ cur_leaf then
               match nextBlock bs with
               | none => none
               | some (b, bs) => some (updSlot d blockId i b, bs)
             else some (d, bs)) with
      | none => none
      | some (d, bs) =>
        match child d bs (d blockId i) cur_leaf with
        | none => none
        | some (d, cur_leaf, bs) =>
          buildTreeStep child src_leaf dst_leaf blockId fuel (i + 1) cur_leaf d bs
    else some (d, cur_leaf, bs)

/-- `DiskInode::build_tree` (`layout.rs` lines 333-369), indexed by the
remaining depth `dst_depth - cur_depth` instead of the pair of depths.
At remaining depth 0 the source returns `cur_leaf + 1`; otherwise it runs the
slot loop on `block_id` with `i` starting at 0. -/
def buildTree (src_leaf dst_leaf : Nat) :
    Nat → Disk → List Nat → Nat → Nat → Option (Disk × Nat × List Nat)
  | 0, d, bs, _blockId, cur_leaf => some (d, cur_leaf + 1, bs)
  | depth + 1, d, bs, blockId, cur_leaf =>
    buildTreeStep (fun d bs bid cl => buildTree src_leaf dst_leaf depth d bs bid cl)
      src_leaf dst_leaf blockId INODE_INDIRECT1_COUNT 0 cur_leaf d bs

/-- The `// alloc indirect3` and `// fill indirect3` sections of
`DiskInode::increase_size` (`layout.rs` lines 267-288), entered with the
tier-local `current_blocks`/`total_blocks` of the indirect2 tier.  If the
indirect3 tier is not needed the source returns early.  The `match`/early
return control flow of the source is expressed with `Option.bind`. -/
def increaseSizeInd3 (st : DiskInode) (d : Disk) (current_blocks total_blocks : Nat)
    (new_blocks : List Nat) : Option (DiskInode × Disk × List Nat) :=
  if total_blocks > INODE_INDIRECT2_COUNT then
    ((if current_blocks = INODE_INDIRECT2_COUNT then
        (nextBlock new_blocks).bind fun p => some ({ st with indirect3 := p.1 }, p.2)
      else some (st, new_blocks)).bind fun q =>
      (buildTree (current_blocks - INODE_INDIRECT2_COUNT)
          (total_blocks - INODE_INDIRECT2_COUNT) 3 d q.2 q.1.indirect3 0).bind fun r =>
        some (q.1, r.1, r.2.2))
  else some (st, d, new_blocks)

/-- The `// alloc indirect2` and `// fill indirect2` sections of
`DiskInode::increase_size` (`layout.rs` lines 231-266), entered with the
tier-local counters of the indirect1 tier. -/
def increaseSizeInd2 (st : DiskInode) (d : Disk) (current_blocks total_blocks : Nat)
    (new_blocks : List Nat) : Option (DiskInode × Disk × List Nat) :=
  if total_blocks > INODE_INDIRECT1_COUNT then
    ((if current_blocks = INODE_INDIRECT1_COUNT then
        (nextBlock new_blocks).bind fun p => some ({ st with indirect2 := p.1 }, p.2)
      else some (st, new_blocks)).bind fun q =>
      (fillIndirect2 (decompose2 (min (total_blocks - INODE_INDIRECT1_COUNT)
            INODE_INDIRECT2_COUNT)).1
          (decompose2 (min (total_blocks - INODE_INDIRECT1_COUNT) INODE_INDIRECT2_COUNT)).2
          q.1.indirect2 (INODE_INDIRECT2_COUNT + 1)
          (decompose2 (current_blocks - INODE_INDIRECT1_COUNT)).1
          (decompose2 (current_blocks - INODE_INDIRECT1_COUNT)).2
          (current_blocks - INODE_INDIRECT1_COUNT) d q.2).bind fun r =>
        increaseSizeInd3 q.1 r.1 r.2.1 (total_blocks - INODE_INDIRECT1_COUNT) r.2.2)
  else some (st, d, new_blocks)

/-- The `// alloc indirect1` and `// fill indirect1` sections of
`DiskInode::increase_size` (`layout.rs` lines 212-230), entered with the
whole-file `current_blocks`/`total_blocks` after the direct tier is full. -/
def increaseSizeTiers (st : DiskInode) (d : Disk) (current_blocks total_blocks : Nat)
    (new_blocks : List Nat) : Option (DiskInode × Disk × List Nat) :=
  if total_blocks > INODE_DIRECT_COUNT then
    ((if current_blocks = INODE_DIRECT_COUNT then
        (nextBlock new_blocks).bind fun p => some ({ st with indirect1 := p.1 }, p.2)
      else some (st, new_blocks)).bind fun q =>
      (fillIndirect1 (total_blocks - INODE_DIRECT_COUNT) q.1.indirect1
          (INODE_INDIRECT1_COUNT + 1) (current_blocks - INODE_DIRECT_COUNT) d q.2).bind
        fun r =>
          increaseSizeInd2 q.1 r.1 r.2.1 (total_blocks - INODE_DIRECT_COUNT) r.2.2)
  else some (st, d, new_blocks)

/-- `DiskInode::increase_size` (`layout.rs` lines 197-329).  Returns the
final inode, the pointer-slot store and the unconsumed suffix of the id
sequence; `none` models a `.unwrap()` panic on an exhausted iterator.
The straight-line source is split here into one definition per tier section
(direct fill below, then `increaseSizeTiers` → `increaseSizeInd2` →
`increaseSizeInd3`), each mirroring its block of the source. -/
def increaseSize (st : DiskInode) (d : Disk) (new_size : Nat) (new_blocks : List Nat) :
    Option (DiskInode × Disk × List Nat) :=
  -- `self.size = new_size` happens before any block accounting
  (fillDirect (_data_blocks new_size) (INODE_DIRECT_COUNT + 1) (_data_blocks st.size)
      st.direct new_blocks).bind fun p =>
    increaseSizeTiers { st with size := new_size, direct := p.1 } d p.2.1
      (_data_blocks new_size) p.2.2

/-- The `// direct` loop of `clear_size` (`layout.rs` lines 379-383):
`while cur < data_blocks.min(INODE_DIRECT_COUNT) { v.push(direct[cur]);
direct[cur] = 0; cur += 1 }`. -/
def clearDirect (data_blocks : Nat) :
    Nat → Nat → (Nat → Nat) → List Nat → (Nat → Nat) × Nat × List Nat
  | 0, cur, dir, v => (dir, cur, v)
  | fuel + 1, cur, dir, v =>
    if cur < min data_blocks INODE_DIRECT_COUNT then
      clearDirect data_blocks fuel (cur + 1) (fun i => if i = cur then 0 else dir i)
        (v ++ [dir cur])
    else (dir, cur, v)

/-- The `// indirect1` loop of `clear_size` (`layout.rs` lines 393-401):
pushes the first `data_blocks.min(INODE_INDIRECT1_COUNT)` entries of the
indirect1 root block (the entry zeroing is commented out in the source). -/
def collectIndirect1 (data_blocks blk : Nat) (d : Disk) :
    Nat → Nat → List Nat → List Nat
  | 0, _cur, v => v
  | fuel + 1, cur, v =>
    if cur < min data_blocks INODE_INDIRECT1_COUNT then
      collectIndirect1 data_blocks blk d fuel (cur + 1) (v ++ [d blk cur])
    else v

/-- `for entry in indirect1.iter().take(n)`: push slots `i .. i + fuel - 1`
of block `blk` (`layout.rs` lines 421-423 with `n = 128`, lines 432-434 with
`n = b1`). -/
def pushEntries (blk : Nat) (d : Disk) : Nat → Nat → List Nat → List Nat
  | 0, _i, v => v
  | fuel + 1, i, v => pushEntries blk d fuel (i + 1) (v ++ [d blk i])

/-- The `// full indirect1 blocks` loop of `clear_size` (`layout.rs` lines
416-425): for each of the first `a1` entries of the indirect2 root, push the
entry and then all 128 slots of the sub-block it points to. -/
def collectFullIndirect1s (a1 blk : Nat) (d : Disk) : Nat → Nat → List Nat → List Nat
  | 0, _j, v => v
  | fuel + 1, j, v =>
    if j < a1 then
      let v := v ++ [d blk j]
      let v := pushEntries (d blk j) d INODE_INDIRECT1_COUNT 0 v
      collectFullIndirect1s a1 blk d fuel (j + 1) v
    else v

/-- The loop of `DiskInode::collect_tree_blocks` (`layout.rs` lines 468-485),
abstracted over the recursive call on the child.  Every visited slot is
pushed before descending into it. -/
def collectTreeStep (child : List Nat → Nat → Nat → List Nat × Nat)
    (max_leaf blockId : Nat) (d : Disk) :
    Nat → Nat → Nat → List Nat → List Nat × Nat
  | 0, _i, cur_leaf, v => (v, cur_leaf)
  | fuel + 1, i, cur_leaf, v =>
    if cur_leaf < max_leaf then
      let entry := d blockId i
      match child (v ++ [entry]) entry cur_leaf with
      | (v, cur_leaf) => collectTreeStep child max_leaf blockId d fuel (i + 1) cur_leaf v
    else (v, cur_leaf)

/-- `DiskInode::collect_tree_blocks` (`layout.rs` lines 455-487), indexed by
the remaining depth `dst_depth - cur_depth`. -/
def collectTreeBlocks (max_leaf : Nat) (d : Disk) :
    Nat → List Nat → Nat → Nat → List Nat × Nat
  | 0, v, _blockId, cur_leaf => (v, cur_leaf + 1)
  | depth + 1, v, blockId, cur_leaf =>
    collectTreeStep (fun v bid cl => collectTreeBlocks max_leaf d depth v bid cl)
      max_leaf blockId d INODE_INDIRECT1_COUNT 0 cur_leaf v

/-- The `// indirect3 block` section of `clear_size` (`layout.rs` lines
437-449), entered with the tier-local `data_blocks` left after the direct
and indirect1 tiers.  The `assert!(data_blocks <= INODE_INDIRECT3_COUNT)`
at line 441 — checked before the indirect2 tier is subtracted — is modelled
as `none`. -/
def clearSizeInd3 (st : DiskInode) (d : Disk) (data_blocks : Nat) (v : List Nat) :
    Option (List Nat × DiskInode × Disk) :=
  if data_blocks ≤ INODE_INDIRECT3_COUNT then
    if data_blocks > INODE_INDIRECT2_COUNT then
      some ((collectTreeBlocks (data_blocks - INODE_INDIRECT2_COUNT) d 3 (v ++ [st.indirect3])
          st.indirect3 0).1,
        { st with indirect3 := 0 }, d)
    else some (v, st, d)
  else none

/-- The `// indirect2 block`, `// indirect2` and `// last indirect1 block`
sections of `clear_size` (`layout.rs` lines 404-436), entered with the
tier-local `data_blocks` left after the direct tier: pushes the indirect2
root, the full indirect1 sub-blocks with their leaves, then the partially
filled last sub-block, zeroes `indirect2` and continues with the indirect3
section. -/
def clearSizeInd2 (st : DiskInode) (d : Disk) (data_blocks : Nat) (v : List Nat) :
    Option (List Nat × DiskInode × Disk) :=
  if data_blocks > INODE_INDIRECT1_COUNT then
    clearSizeInd3 { st with indirect2 := 0 } d (data_blocks - INODE_INDIRECT1_COUNT)
      (if (decompose2 (min (data_blocks - INODE_INDIRECT1_COUNT) INODE_INDIRECT2_COUNT)).2 > 0
        then
          pushEntries
            (d st.indirect2
              (decompose2 (min (data_blocks - INODE_INDIRECT1_COUNT) INODE_INDIRECT2_COUNT)).1)
            d
            (decompose2 (min (data_blocks - INODE_INDIRECT1_COUNT) INODE_INDIRECT2_COUNT)).2 0
            (collectFullIndirect1s
                (decompose2 (min (data_blocks - INODE_INDIRECT1_COUNT)
                  INODE_INDIRECT2_COUNT)).1
                st.indirect2 d (INODE_INDIRECT1_COUNT + 1) 0 (v ++ [st.indirect2]) ++
              [d st.indirect2
                (decompose2 (min (data_blocks - INODE_INDIRECT1_COUNT)
                  INODE_INDIRECT2_COUNT)).1])
        else
          collectFullIndirect1s
            (decompose2 (min (data_blocks - INODE_INDIRECT1_COUNT) INODE_INDIRECT2_COUNT)).1
            st.indirect2 d (INODE_INDIRECT1_COUNT + 1) 0 (v ++ [st.indirect2]))
  else some (v, st, d)

/-- The `// indirect1 block` and `// indirect1` sections of `clear_size`
(`layout.rs` lines 386-401), entered with the whole-file `data_blocks`:
pushes the indirect1 root and its used entries, zeroes `indirect1` and
continues with the indirect2 section. -/
def clearSizeInd1 (st : DiskInode) (d : Disk) (data_blocks : Nat) (v : List Nat) :
    Option (List Nat × DiskInode × Disk) :=
  if data_blocks > INODE_DIRECT_COUNT then
    clearSizeInd2 { st with indirect1 := 0 } d (data_blocks - INODE_DIRECT_COUNT)
      (collectIndirect1 (data_blocks - INODE_DIRECT_COUNT) st.indirect1 d
        (INODE_INDIRECT1_COUNT + 1) 0 (v ++ [st.indirect1]))
  else some (v, st, d)

/-- `DiskInode::clear_size` (`layout.rs` lines 373-452).  Returns the list of
collected block ids, the final inode and the store; `none` models the
`assert!(data_blocks <= INODE_INDIRECT3_COUNT)` failure at line 441.
The straight-line source is split into one definition per tier section
(the direct loop below, then `clearSizeInd1` → `clearSizeInd2` →
`clearSizeInd3`), each mirroring its block of the source.  The store is
returned unchanged: the source never writes a pointer slot in `clear_size`
(both zeroing statements inside blocks are commented out), it only zeroes
the inode's own fields. -/
def clearSize (st : DiskInode) (d : Disk) : Option (List Nat × DiskInode × Disk) :=
  -- `self.size = 0` happens first; the direct loop zeroes the visited slots
  clearSizeInd1
    { st with
      size := 0,
      direct := (clearDirect (_data_blocks st.size) (INODE_DIRECT_COUNT + 1) 0 st.direct []).1 }
    d (_data_blocks st.size)
    (clearDirect (_data_blocks st.size) (INODE_DIRECT_COUNT + 1) 0 st.direct []).2.2

/-- Read `len` bytes of block `blk` starting at byte offset `off` (the
`data_block[start % BLOCK_SZ .. start % BLOCK_SZ + block_read_size]` slice
of `read_at`). -/
def readBytes (blk : Nat) (dd : DataDisk) : Nat → Nat → List Nat
  | _off, 0 => []
  | off, len + 1 => dd blk off :: readBytes blk dd (off + 1) len

/-- Overwrite bytes of block `blk` from offset `off` with the list `src`
(the `dst.copy_from_slice(src)` of `write_at`). -/
def writeBytes (blk : Nat) : Nat → List Nat → DataDisk → DataDisk
  | _off, [], dd => dd
  | off, b :: src, dd =>
    writeBytes blk (off + 1) src (fun b' o' => if b' = blk ∧ o' = off then b else dd b' o')

/-- The block-chunk loop of `DiskInode::read_at` (`layout.rs` lines 503-526).
Accumulates the bytes read (`acc`) and the running `read_size`; one fuel unit
per chunk.  Each chunk reads its block through `get_block_id`, whose
out-of-bounds panic propagates (`none`). -/
def readLoop (st : DiskInode) (d : Disk) (dd : DataDisk) (end_ : Nat) :
    Nat → Nat → Nat → Nat → List Nat → Option (Nat × List Nat)
  | 0, _start, _start_block, _read_size, _acc => none
  | fuel + 1, start, start_block, read_size, acc =>
    let end_current_block := min ((start / BLOCK_SZ + 1) * BLOCK_SZ) end_
    let block_read_size := end_current_block - start
    (getBlockId st d start_block).bind fun blk =>
      let acc := acc ++ readBytes blk dd (start % BLOCK_SZ) block_read_size
      let read_size := read_size + block_read_size
      if end_current_block = end_ then some (read_size, acc)
      else readLoop st d dd end_ fuel end_current_block (start_block + 1) read_size acc

/-- `DiskInode::read_at` (`layout.rs` lines 490-528): clips to
`[offset, min(offset + buf.len, size))`, returns 0 on an empty range, and
otherwise copies chunk by chunk.  Returns the byte count and the bytes read
(the contents written into `buf`). -/
def readAt (st : DiskInode) (d : Disk) (dd : DataDisk) (offset : Nat) (bufLen : Nat) :
    Option (Nat × List Nat) :=
  let start := offset
  let end_ := min (offset + bufLen) st.size
  if start ≥ end_ then some (0, [])
  else readLoop st d dd end_ (end_ - start) start (start / BLOCK_SZ) 0 []

/-- The block-chunk loop of `DiskInode::write_at` (`layout.rs` lines
542-565).  Each chunk writes its block through `get_block_id`, whose
out-of-bounds panic propagates (`none`); the source calls it even for a
zero-length chunk. -/
def writeLoop (st : DiskInode) (d : Disk) (buf : List Nat) (end_ : Nat) :
    Nat → Nat → Nat → Nat → DataDisk → Option (Nat × DataDisk)
  | 0, _start, _start_block, _write_size, _dd => none
  | fuel + 1, start, start_block, write_size, dd =>
    let end_current_block := min ((start / BLOCK_SZ + 1) * BLOCK_SZ) end_
    let block_write_size := end_current_block - start
    (getBlockId st d start_block).bind fun blk =>
      let src := (buf.drop write_size).take block_write_size
      let dd := writeBytes blk (start % BLOCK_SZ) src dd
      let write_size := write_size + block_write_size
      if end_current_block = end_ then some (write_size, dd)
      else writeLoop st d buf end_ fuel end_current_block (start_block + 1) write_size dd

/-- `DiskInode::write_at` (`layout.rs` lines 531-567).  The range is clipped
to `[offset, min(offset + buf.len, size))`; `assert!(start <= end)` fails —
modelled as `none` — whenever `offset` is strictly past the clipped end,
i.e. past `size`.  Unlike `read_at` there is no early return: even an empty
range runs one zero-length chunk iteration.  `write_at` never assigns any
inode field, so the inode is taken immutably and only the data facet is
returned. -/
def writeAt (st : DiskInode) (d : Disk) (dd : DataDisk) (offset : Nat) (buf : List Nat) :
    Option (Nat × DataDisk) :=
  let start := offset
  let end_ := min (offset + buf.length) st.size
  if start ≤ end_ then
    writeLoop st d buf end_ (end_ - start + 1) start (start / BLOCK_SZ) 0 dd
  else none

/-- `DirEntry` (`layout.rs` lines 571-574): a 28-byte name field and the
inode number.  Bytes are modelled as `Nat` values; `name` holds exactly the
`NAME_LENGTH_LIMIT + 1` array entries. -/
structure DirEntry where
  name : List Nat
  inode_number : Nat

/-- `DirEntry::new` (`layout.rs` lines 587-594): `bytes[..name.len()]
.copy_from_slice(name.as_bytes())` into a zeroed 28-byte array.  The slice
`bytes[..name.len()]` panics — modelled as `none` — exactly when
`name.len()` exceeds the array length 28; there is no length assertion in
the source. -/
def DirEntry.new (name : List Nat) (inode_number : Nat) : Option DirEntry :=
  if name.length ≤ NAME_LENGTH_LIMIT + 1 then
    some { name := name ++ List.replicate (NAME_LENGTH_LIMIT + 1 - name.length) 0,
           inode_number := inode_number }
  else none

/-- Index of the first zero in the name array: `(0usize..).find(|i|
self.name[*i] == 0)` (`layout.rs` line 605).  If no byte of the 28-byte
array is zero the source indexes past the array and panics: `none`. -/
def firstZero : List Nat → Option Nat
  | [] => none
  | b :: bs => if b = 0 then some 0 else (firstZero bs).map (· + 1)

/-- `DirEntry::name` (`layout.rs` lines 604-607): the bytes before the first
zero.  (The source additionally decodes them as UTF-8; byte lists stand for
strings here, so the decoding step is the identity on the prefix.) -/
def DirEntry.decodeName (e : DirEntry) : Option (List Nat) :=
  match firstZero e.name with
  | some len => some (e.name.take len)
  | none => none

/-! ### Auxiliary definitions used to state the verification results -/

/-- The all-zero pointer store. -/
def zeroDisk : Disk := fun _ _ => 0

/-- The all-zero data store. -/
def zeroData : DataDisk := fun _ _ => 0

/-- Modelled from the spec, section 4.3: the tier-by-tier index-block count —
"+1 for the indirect1 root once data blocks exceed 27; +1 for indirect2 root
plus one sub-pointer block per started group of N once data blocks exceed
27+N; +1 for indirect3 root plus the count of level-2 and level-3
intermediate blocks needed once data blocks exceed 27+N+N²" (N = 128; the
indirect2 tier holds at most N groups, so its started-group count is capped
at N, groups beyond it belonging to the indirect3 tier). -/
def specIndexBlocks (size : Nat) : Nat :=
  let db := (size + 511) / 512
  (if 27 < db then 1 else 0) +
    (if 27 + 128 < db then 1 + min ((db - (27 + 128) + 127) / 128) 128 else 0) +
    (if 27 + 128 + 128 * 128 < db then
      1 + (db - (27 + 128 + 128 * 128) + 128 * 128 - 1) / (128 * 128) +
        (db - (27 + 128 + 128 * 128) + 127) / 128
    else 0)

/-- The pointer-cleanliness invariant of a `DiskInode` (spec section 3:
"pointer fields are 0 when the corresponding tier is unused"), together with
zeroed unused direct slots.  Every inode reachable from the initialized
state through `increase_size`/`clear_size` satisfies it. -/
def pointersClean (st : DiskInode) : Prop :=
  (∀ i, i < INODE_DIRECT_COUNT → _data_blocks st.size ≤ i → st.direct i = 0) ∧
    (_data_blocks st.size ≤ INODE_DIRECT_COUNT → st.indirect1 = 0) ∧
    (_data_blocks st.size ≤ INDIRECT1_BOUND → st.indirect2 = 0) ∧
    (_data_blocks st.size ≤ INDIRECT2_BOUND → st.indirect3 = 0)

instance (st : DiskInode) : Decidable (pointersClean st) := by
  unfold pointersClean; infer_instance

/-- Ids drawn by `build_tree` on a depth-1 subtree based at leaf `cl`:
the leaves of `[cl, min dst (cl + 128))` whose position is at least `src`. -/
def K1 (src dst cl : Nat) : Nat :=
  min dst (cl + 128) - min (max cl src) (min dst (cl + 128))

/-- Ids drawn by `build_tree` on a depth-2 subtree based at leaf `cl`:
new leaves plus one id per new depth-1 child (a 128-aligned position at or
past `src`). -/
def K2 (src dst cl : Nat) : Nat :=
  (min dst (cl + 16384) - min (max cl src) (min dst (cl + 16384))) +
    ((min dst (cl + 16384) + 127) / 128 -
      (min (max cl src) (min dst (cl + 16384)) + 127) / 128)

/-- Ids drawn by `build_tree` on the full depth-3 tree based at leaf `cl`:
new leaves plus new depth-2 children (128-aligned) plus new depth-1 children
(16384-aligned). -/
def K3 (src dst cl : Nat) : Nat :=
  (min dst (cl + 2097152) - min (max cl src) (min dst (cl + 2097152))) +
    ((min dst (cl + 2097152) + 127) / 128 -
      (min (max cl src) (min dst (cl + 2097152)) + 127) / 128) +
    ((min dst (cl + 2097152) + 16383) / 16384 -
      (min (max cl src) (min dst (cl + 2097152)) + 16383) / 16384)

/-- Remaining ids drawn by the `build_tree` slot loop of a depth-1 node
based at `p` once the loop has reached leaf `cl`. -/
def LK1 (p src dst cl : Nat) : Nat :=
  min dst (p + 128) - min (max cl src) (min dst (p + 128))

/-- Remaining ids drawn by the slot loop of a depth-2 node based at `p`
once the loop has reached leaf `cl`. -/
def LK2 (p src dst cl : Nat) : Nat :=
  (min dst (p + 16384) - min (max cl src) (min dst (p + 16384))) +
    ((min dst (p + 16384) + 127) / 128 -
      (min (max cl src) (min dst (p + 16384)) + 127) / 128)

/-- Remaining ids drawn by the slot loop of the depth-3 root based at `p`
once the loop has reached leaf `cl`. -/
def LK3 (p src dst cl : Nat) : Nat :=
  (min dst (p + 2097152) - min (max cl src) (min dst (p + 2097152))) +
    ((min dst (p + 2097152) + 127) / 128 -
      (min (max cl src) (min dst (p + 2097152)) + 127) / 128) +
    ((min dst (p + 2097152) + 16383) / 16384 -
      (min (max cl src) (min dst (p + 2097152)) + 16383) / 16384)

/-- Ids drawn by the `increaseSizeInd3` section: the indirect3 root when
`current_blocks` sits exactly on the tier boundary, plus the depth-3 tree
fill `K3`. -/
def consumedInd3 (cur tot : Nat) : Nat :=
  if INODE_INDIRECT2_COUNT < tot then
    (if cur = INODE_INDIRECT2_COUNT then 1 else 0) +
      K3 (cur - INODE_INDIRECT2_COUNT) (tot - INODE_INDIRECT2_COUNT) 0
  else 0

/-- Ids drawn from the indirect2 section on: the indirect2 root, the
indirect2 fill (leaves plus one id per started 128-group) and the
indirect3 section. -/
def consumedInd2 (cur tot : Nat) : Nat :=
  if INODE_INDIRECT1_COUNT < tot then
    (if cur = INODE_INDIRECT1_COUNT then 1 else 0) +
      ((min (tot - INODE_INDIRECT1_COUNT) INODE_INDIRECT2_COUNT -
          (cur - INODE_INDIRECT1_COUNT)) +
        ((min (tot - INODE_INDIRECT1_COUNT) INODE_INDIRECT2_COUNT + 127) / 128 -
          (cur - INODE_INDIRECT1_COUNT + 127) / 128)) +
      consumedInd3
        (max (cur - INODE_INDIRECT1_COUNT)
          (min (tot - INODE_INDIRECT1_COUNT) INODE_INDIRECT2_COUNT))
        (tot - INODE_INDIRECT1_COUNT)
  else 0

/-- Ids drawn from the indirect1 section on: the indirect1 root, the
indirect1 fill and the deeper sections. -/
def consumedTiers (cur tot : Nat) : Nat :=
  if INODE_DIRECT_COUNT < tot then
    (if cur = INODE_DIRECT_COUNT then 1 else 0) +
      (min (tot - INODE_DIRECT_COUNT) INODE_INDIRECT1_COUNT -
        (cur - INODE_DIRECT_COUNT)) +
      consumedInd2
        (max (cur - INODE_DIRECT_COUNT)
          (min (tot - INODE_DIRECT_COUNT) INODE_INDIRECT1_COUNT))
        (tot - INODE_DIRECT_COUNT)
  else 0

/-- Total number of ids `increase_size` draws when growing an inode of `b0`
data blocks to `b1` data blocks: the direct fill plus all tier sections. -/
def consumedTotal (b0 b1 : Nat) : Nat :=
  (min b1 INODE_DIRECT_COUNT - b0) +
    consumedTiers (max b0 (min b1 INODE_DIRECT_COUNT)) b1

/-- The largest size whose data blocks all fit in the pointer tree:
`(27 + 128 + 128² + 128³) * 512` bytes. -/
def MAX_ADDRESSABLE_SIZE : Nat :=
  (INODE_DIRECT_COUNT + INODE_INDIRECT1_COUNT + INODE_INDIRECT2_COUNT +
    INODE_INDIRECT3_COUNT) * BLOCK_SZ

/-! ### Basic facts about the constants and the id sequence -/

theorem BLOCK_SZ_eq : BLOCK_SZ = 512 := rfl

theorem INODE_DIRECT_COUNT_eq : INODE_DIRECT_COUNT = 27 := rfl

theorem INODE_INDIRECT1_COUNT_eq : INODE_INDIRECT1_COUNT = 128 := rfl

theorem INODE_INDIRECT2_COUNT_eq : INODE_INDIRECT2_COUNT = 16384 := rfl

theorem INODE_INDIRECT3_COUNT_eq : INODE_INDIRECT3_COUNT = 2097152 := rfl

theorem INDIRECT1_BOUND_eq : INDIRECT1_BOUND = 155 := rfl

theorem INDIRECT2_BOUND_eq : INDIRECT2_BOUND = 16539 := rfl

theorem MAX_ADDRESSABLE_SIZE_eq : MAX_ADDRESSABLE_SIZE = 1082209792 := rfl

theorem _data_blocks_mono {s t : Nat} (h : s ≤ t) : _data_blocks s ≤ _data_blocks t := by
  unfold _data_blocks
  rw [BLOCK_SZ_eq]
  omega

/-! ### The direct and indirect1 fill loops -/

/-- The direct fill loop consumes `min total 27 - cur` ids and leaves
`current_blocks = max cur (min total 27)`. -/
theorem fillDirect_spec (total_blocks : Nat) :
    ∀ (fuel cur : Nat) (dir : Nat → Nat) (l : List Nat),
      min total_blocks INODE_DIRECT_COUNT - cur < fuel →
      min total_blocks INODE_DIRECT_COUNT - cur ≤ l.length →
      ∃ dir', fillDirect total_blocks fuel cur dir l =
        some (dir', max cur (min total_blocks INODE_DIRECT_COUNT),
          l.drop (min total_blocks INODE_DIRECT_COUNT - cur)) := by
  intro fuel
  induction fuel with
  | zero => intro cur dir l hf _; omega
  | succ fuel ih =>
    intro cur dir l hf hl
    rw [fillDirect]
    by_cases hc : cur < min total_blocks INODE_DIRECT_COUNT
    · rw [if_pos hc]
      cases l with
      | nil => simp at hl; omega
      | cons b bs =>
        obtain ⟨dir', h⟩ := ih (cur + 1) (fun i => if i = cur then b else dir i) bs
          (by omega) (by simp at hl ⊢; omega)
        refine ⟨dir', ?_⟩
        have h2 : min total_blocks INODE_DIRECT_COUNT - cur =
            (min total_blocks INODE_DIRECT_COUNT - (cur + 1)) + 1 := by omega
        have h1 : max cur (min total_blocks INODE_DIRECT_COUNT) =
            max (cur + 1) (min total_blocks INODE_DIRECT_COUNT) := by omega
        rw [h2, List.drop_succ_cons, h1]
        exact h
    · rw [if_neg hc]
      refine ⟨dir, ?_⟩
      have h1 : max cur (min total_blocks INODE_DIRECT_COUNT) = cur := by omega
      have h2 : min total_blocks INODE_DIRECT_COUNT - cur = 0 := by omega
      rw [h1, h2, List.drop_zero]

/-- When `current_blocks` already covers the direct tier the loop is a
no-op. -/
theorem fillDirect_noop (total_blocks fuel cur : Nat) (dir : Nat → Nat) (l : List Nat)
    (h : min total_blocks INODE_DIRECT_COUNT ≤ cur) :
    fillDirect total_blocks (fuel + 1) cur dir l = some (dir, cur, l) := by
  rw [fillDirect, if_neg (by omega)]

/-- The indirect1 fill loop consumes `min total 128 - cur` ids. -/
theorem fillIndirect1_spec (total_blocks blk : Nat) :
    ∀ (fuel cur : Nat) (d : Disk) (l : List Nat),
      min total_blocks INODE_INDIRECT1_COUNT - cur < fuel →
      min total_blocks INODE_INDIRECT1_COUNT - cur ≤ l.length →
      ∃ d', fillIndirect1 total_blocks blk fuel cur d l =
        some (d', max cur (min total_blocks INODE_INDIRECT1_COUNT),
          l.drop (min total_blocks INODE_INDIRECT1_COUNT - cur)) := by
  intro fuel
  induction fuel with
  | zero => intro cur d l hf _; omega
  | succ fuel ih =>
    intro cur d l hf hl
    rw [fillIndirect1]
    by_cases hc : cur < min total_blocks INODE_INDIRECT1_COUNT
    · rw [if_pos hc]
      cases l with
      | nil => simp at hl; omega
      | cons b bs =>
        obtain ⟨d', h⟩ := ih (cur + 1) (updSlot d blk cur b) bs
          (by omega) (by simp at hl ⊢; omega)
        refine ⟨d', ?_⟩
        have h2 : min total_blocks INODE_INDIRECT1_COUNT - cur =
            (min total_blocks INODE_INDIRECT1_COUNT - (cur + 1)) + 1 := by omega
        have h1 : max cur (min total_blocks INODE_INDIRECT1_COUNT) =
            max (cur + 1) (min total_blocks INODE_INDIRECT1_COUNT) := by omega
        rw [h2, List.drop_succ_cons, h1]
        exact h
    · rw [if_neg hc]
      refine ⟨d, ?_⟩
      have h1 : max cur (min total_blocks INODE_INDIRECT1_COUNT) = cur := by omega
      have h2 : min total_blocks INODE_INDIRECT1_COUNT - cur = 0 := by omega
      rw [h1, h2, List.drop_zero]

/-- The indirect2 fill loop walked from flat position `cur` to
`end_ = 128 * a1 + b1` consumes one id per leaf plus one id per 128-aligned
position crossed (the freshly allocated sub-blocks). -/
theorem fillIndirect2_spec (blk a1 b1 end_ : Nat) (hb1 : b1 < 128)
    (hend : 128 * a1 + b1 = end_) :
    ∀ (fuel a0 b0 cur : Nat) (d : Disk) (l : List Nat),
      a0 = cur / 128 → b0 = cur % 128 →
      end_ - cur < fuel →
      (end_ - cur) + ((end_ + 127) / 128 - (cur + 127) / 128) ≤ l.length →
      ∃ d', fillIndirect2 a1 b1 blk fuel a0 b0 cur d l =
        some (d', max cur end_,
          l.drop ((end_ - cur) + ((end_ + 127) / 128 - (cur + 127) / 128))) := by
  intro fuel
  induction fuel with
  | zero => intro a0 b0 cur d l _ _ hf _; omega
  | succ fuel ih =>
    intro a0 b0 cur d l ha hb hf hl
    rw [fillIndirect2, INODE_INDIRECT1_COUNT_eq]
    by_cases hc : cur < end_
    · rw [if_pos (by omega)]
      have hmax : max cur end_ = max (cur + 1) end_ := by omega
      by_cases hz : b0 = 0
      · -- a fresh sub-block id is drawn first, then the leaf id
        have hw : ¬ (b0 + 1 = 128) := by omega
        have hdiv : (end_ + 127) / 128 - (cur + 127) / 128 =
            ((end_ + 127) / 128 - (cur + 1 + 127) / 128) + 1 := by omega
        have hn : 2 ≤ l.length := by omega
        rcases l with _ | ⟨x, l2⟩
        · simp at hn
        rcases l2 with _ | ⟨y, l3⟩
        · simp at hn
        rw [if_pos hz]
        simp only [if_neg hw]
        obtain ⟨d', h⟩ := ih a0 (b0 + 1) (cur + 1) _ l3
          (by omega) (by omega) (by omega)
          (by simp only [List.length_cons] at hl; omega)
        refine ⟨d', ?_⟩
        have hdrop : (end_ - cur) + ((end_ + 127) / 128 - (cur + 127) / 128) =
            (((end_ - (cur + 1)) + ((end_ + 127) / 128 - (cur + 1 + 127) / 128)) + 1) + 1 := by
          omega
        rw [hdrop, List.drop_succ_cons, List.drop_succ_cons, hmax]
        exact h
      · -- only the leaf id is drawn
        have hdiv : (cur + 1 + 127) / 128 = (cur + 127) / 128 := by omega
        have hn : 1 ≤ l.length := by omega
        rcases l with _ | ⟨x, l2⟩
        · simp at hn
        rw [if_neg hz]
        by_cases hw : b0 + 1 = 128
        · simp only [if_pos hw]
          obtain ⟨d', h⟩ := ih (a0 + 1) 0 (cur + 1) _ l2
            (by omega) (by omega) (by omega)
            (by simp only [List.length_cons] at hl; omega)
          refine ⟨d', ?_⟩
          have hdrop : (end_ - cur) + ((end_ + 127) / 128 - (cur + 127) / 128) =
              ((end_ - (cur + 1)) + ((end_ + 127) / 128 - (cur + 1 + 127) / 128)) + 1 := by
            omega
          rw [hdrop, List.drop_succ_cons, hmax]
          exact h
        · simp only [if_neg hw]
          obtain ⟨d', h⟩ := ih a0 (b0 + 1) (cur + 1) _ l2
            (by omega) (by omega) (by omega)
            (by simp only [List.length_cons] at hl; omega)
          refine ⟨d', ?_⟩
          have hdrop : (end_ - cur) + ((end_ + 127) / 128 - (cur + 127) / 128) =
              ((end_ - (cur + 1)) + ((end_ + 127) / 128 - (cur + 1 + 127) / 128)) + 1 := by
            omega
          rw [hdrop, List.drop_succ_cons, hmax]
          exact h
    · rw [if_neg (by omega)]
      refine ⟨d, ?_⟩
      have h1 : max cur end_ = cur := by omega
      have h2 : (end_ - cur) + ((end_ + 127) / 128 - (cur + 127) / 128) = 0 := by omega
      rw [h1, h2, List.drop_zero]

/-! ### The recursive tree fill -/

/-- The `build_tree` slot loop returns immediately once `cur_leaf` has
reached `dst_leaf`. -/
theorem buildTreeStep_stop (child : Disk → List Nat → Nat → Nat → Option (Disk × Nat × List Nat))
    (src dst blockId : Nat) (fuel i cl : Nat) (d : Disk) (bs : List Nat) (h : dst ≤ cl) :
    buildTreeStep child src dst blockId fuel i cl d bs = some (d, cl, bs) := by
  cases fuel with
  | zero => rw [buildTreeStep]
  | succ fuel => rw [buildTreeStep, if_neg (by omega)]

/-- One iteration of the slot loop with a fresh id drawn for slot `i`. -/
theorem buildTreeStep_succ_draw (child : Disk → List Nat → Nat → Nat → Option (Disk × Nat × List Nat))
    (src dst blockId fuel i cl : Nat) (d : Disk) (x : Nat) (l2 : List Nat)
    (hlt : cl < dst) (hs : src ≤ cl) :
    buildTreeStep child src dst blockId (fuel + 1) i cl d (x :: l2) =
      match child (updSlot d blockId i x) l2 (updSlot d blockId i x blockId i) cl with
      | none => none
      | some (d, cl, bs) => buildTreeStep child src dst blockId fuel (i + 1) cl d bs := by
  rw [buildTreeStep, if_pos hlt, if_pos hs]; rfl

/-- One iteration of the slot loop descending into an existing child. -/
theorem buildTreeStep_succ_nodraw (child : Disk → List Nat → Nat → Nat → Option (Disk × Nat × List Nat))
    (src dst blockId fuel i cl : Nat) (d : Disk) (l : List Nat)
    (hlt : cl < dst) (hs : ¬ src ≤ cl) :
    buildTreeStep child src dst blockId (fuel + 1) i cl d l =
      match child d l (d blockId i) cl with
      | none => none
      | some (d, cl, bs) => buildTreeStep child src dst blockId fuel (i + 1) cl d bs := by
  rw [buildTreeStep, if_pos hlt, if_neg hs]

/-- The generic specification of the `build_tree` slot loop over a node
based at leaf `p` whose children each cover `c` leaves: provided the child
call behaves like a tree fill of capacity `c` consuming `Kc` ids, the loop
started at slot `i` (leaf position `p + i * c`) stops at
`max (p + i * c) (min dst (p + 128 * c))` and consumes `LK (p + i * c)` ids,
where `LK` satisfies the loop recurrence. -/
theorem buildTreeStep_spec
    (child : Disk → List Nat → Nat → Nat → Option (Disk × Nat × List Nat))
    (src dst blockId p c : Nat) (Kc LK : Nat → Nat) (hc : 0 < c) (hp : c ∣ p)
    (hchild : ∀ (d : Disk) (l : List Nat) (bid cl : Nat), c ∣ cl → cl < dst →
      Kc cl ≤ l.length →
      ∃ d', child d l bid cl = some (d', min dst (cl + c), l.drop (Kc cl)))
    (hstop : ∀ cl, min dst (p + 128 * c) ≤ cl → LK cl = 0)
    (hstep : ∀ cl, c ∣ cl → p ≤ cl → cl < dst → cl < p + 128 * c →
      LK cl = (if src ≤ cl then 1 else 0) + Kc cl + LK (min dst (cl + c))) :
    ∀ (fuel i : Nat) (d : Disk) (l : List Nat),
      fuel + i = 128 →
      LK (p + i * c) ≤ l.length →
      ∃ d', buildTreeStep child src dst blockId fuel i (p + i * c) d l =
        some (d', max (p + i * c) (min dst (p + 128 * c)), l.drop (LK (p + i * c))) := by
  intro fuel
  induction fuel with
  | zero =>
    intro i d l hi hl
    have hi' : i = 128 := by omega
    subst hi'
    rw [buildTreeStep]
    refine ⟨d, ?_⟩
    have h1 : max (p + 128 * c) (min dst (p + 128 * c)) = p + 128 * c := by omega
    have h2 : LK (p + 128 * c) = 0 := hstop _ (by omega)
    rw [h1, h2, List.drop_zero]
  | succ fuel ih =>
    intro i d l hi hl
    have hi127 : i ≤ 127 := by omega
    have hicc : (i + 1) * c = i * c + c := by ring
    have hic127 : i * c ≤ 127 * c := Nat.mul_le_mul_right c hi127
    have hc128 : 128 * c = 127 * c + c := by ring
    by_cases hlt : p + i * c < dst
    · have hcl_lt : p + i * c < p + 128 * c := by omega
      have hdvd : c ∣ p + i * c := dvd_add hp (dvd_mul_left c i)
      have hLK := hstep (p + i * c) hdvd (by omega) hlt hcl_lt
      by_cases hfit : p + i * c + c ≤ dst
      · -- the child subtree is filled completely
        have hmin : min dst (p + i * c + c) = p + (i + 1) * c := by omega
        have hKle : Kc (p + i * c) + LK (p + (i + 1) * c) + (if src ≤ p + i * c then 1 else 0) =
            LK (p + i * c) := by rw [hLK, hmin]; omega
        by_cases hs : src ≤ p + i * c
        · rw [if_pos hs] at hKle
          rcases l with _ | ⟨x, l2⟩
          · exfalso; simp only [List.length_nil] at hl; omega
          simp only [List.length_cons] at hl
          obtain ⟨d2, h2⟩ := hchild (updSlot d blockId i x) l2
            (updSlot d blockId i x blockId i) (p + i * c) hdvd hlt (by omega)
          rw [hmin] at h2
          obtain ⟨d3, h3⟩ := ih (i + 1) d2 (l2.drop (Kc (p + i * c)))
            (by omega) (by rw [List.length_drop]; omega)
          refine ⟨d3, ?_⟩
          have hmax : max (p + i * c) (min dst (p + 128 * c)) =
              max (p + (i + 1) * c) (min dst (p + 128 * c)) := by omega
          have hdropn : LK (p + i * c) =
              (Kc (p + i * c) + LK (p + (i + 1) * c)) + 1 := by omega
          rw [hmax, hdropn, List.drop_succ_cons, ← List.drop_drop,
            buildTreeStep_succ_draw child src dst blockId fuel i (p + i * c) d x l2 hlt hs,
            h2]
          exact h3
        · rw [if_neg hs] at hKle
          obtain ⟨d2, h2⟩ := hchild d l (d blockId i) (p + i * c) hdvd hlt (by omega)
          rw [hmin] at h2
          obtain ⟨d3, h3⟩ := ih (i + 1) d2 (l.drop (Kc (p + i * c)))
            (by omega) (by rw [List.length_drop]; omega)
          refine ⟨d3, ?_⟩
          have hmax : max (p + i * c) (min dst (p + 128 * c)) =
              max (p + (i + 1) * c) (min dst (p + 128 * c)) := by omega
          have hdropn : LK (p + i * c) = Kc (p + i * c) + LK (p + (i + 1) * c) := by omega
          rw [hmax, hdropn, ← List.drop_drop,
            buildTreeStep_succ_nodraw child src dst blockId fuel i (p + i * c) d l hlt hs,
            h2]
          exact h3
      · -- the child subtree is cut short by `dst`; the loop then exits
        have hmin : min dst (p + i * c + c) = dst := by omega
        have hLKdst : LK dst = 0 := hstop _ (by omega)
        rw [hmin, hLKdst] at hLK
        have hmax : max (p + i * c) (min dst (p + 128 * c)) = dst := by omega
        by_cases hs : src ≤ p + i * c
        · rw [if_pos hs] at hLK
          rcases l with _ | ⟨x, l2⟩
          · exfalso; simp only [List.length_nil] at hl; omega
          simp only [List.length_cons] at hl
          obtain ⟨d2, h2⟩ := hchild (updSlot d blockId i x) l2
            (updSlot d blockId i x blockId i) (p + i * c) hdvd hlt (by omega)
          rw [hmin] at h2
          refine ⟨d2, ?_⟩
          have hdropn : LK (p + i * c) = Kc (p + i * c) + 1 := by omega
          rw [hmax, hdropn, List.drop_succ_cons,
            buildTreeStep_succ_draw child src dst blockId fuel i (p + i * c) d x l2 hlt hs,
            h2]
          exact buildTreeStep_stop child src dst blockId fuel (i + 1) dst d2
            (l2.drop (Kc (p + i * c))) le_rfl
        · rw [if_neg hs] at hLK
          obtain ⟨d2, h2⟩ := hchild d l (d blockId i) (p + i * c) hdvd hlt (by omega)
          rw [hmin] at h2
          refine ⟨d2, ?_⟩
          have hdropn : LK (p + i * c) = Kc (p + i * c) := by omega
          rw [hmax, hdropn,
            buildTreeStep_succ_nodraw child src dst blockId fuel i (p + i * c) d l hlt hs,
            h2]
          exact buildTreeStep_stop child src dst blockId fuel (i + 1) dst d2
            (l.drop (Kc (p + i * c))) le_rfl
    · -- the loop guard fails
      rw [buildTreeStep, if_neg hlt]
      refine ⟨d, ?_⟩
      have h1 : max (p + i * c) (min dst (p + 128 * c)) = p + i * c := by omega
      have h2 : LK (p + i * c) = 0 := hstop _ (by omega)
      rw [h1, h2, List.drop_zero]

/-- `LK1` vanishes once the loop position passes the node's end. -/
theorem LK1_stop (p src dst cl : Nat) (h : min dst (p + 128) ≤ cl) :
    LK1 p src dst cl = 0 := by
  unfold LK1; omega

/-- The loop recurrence of `LK1`: one leaf is handled per iteration. -/
theorem LK1_step (p src dst x : Nat) (hpx : p ≤ x) (hxdst : x < dst)
    (hxlt : x < p + 128) :
    LK1 p src dst x = (if src ≤ x then 1 else 0) + 0 + LK1 p src dst (min dst (x + 1)) := by
  unfold LK1
  by_cases hs : src ≤ x
  · rw [if_pos hs]; omega
  · rw [if_neg hs]; omega

/-- `LK1` at the loop start equals the whole-subtree count `K1`. -/
theorem LK1_eq_K1 (src dst cl : Nat) : LK1 cl src dst cl = K1 src dst cl := rfl

/-- `LK2` vanishes once the loop position passes the node's end. -/
theorem LK2_stop (p src dst cl : Nat) (h : min dst (p + 16384) ≤ cl) :
    LK2 p src dst cl = 0 := by
  unfold LK2; omega

/-- The loop recurrence of `LK2`: each iteration draws the child id when its
base is at or past `src` and then consumes `K1` for the child's leaves. -/
theorem LK2_step (p src dst x : Nat) (hdvd : 128 ∣ x) (hpdvd : 128 ∣ p) (hpx : p ≤ x)
    (hxdst : x < dst) (hxlt : x < p + 16384) :
    LK2 p src dst x =
      (if src ≤ x then 1 else 0) + K1 src dst x + LK2 p src dst (min dst (x + 128)) := by
  obtain ⟨y, hy⟩ := hdvd
  obtain ⟨z, hz⟩ := hpdvd
  unfold LK2 K1
  by_cases hs : src ≤ x
  · rw [if_pos hs]; omega
  · rw [if_neg hs]; omega

/-- `LK2` at the loop start equals the whole-subtree count `K2`. -/
theorem LK2_eq_K2 (src dst cl : Nat) : LK2 cl src dst cl = K2 src dst cl := rfl

/-- `LK3` vanishes once the loop position passes the node's end. -/
theorem LK3_stop (p src dst cl : Nat) (h : min dst (p + 2097152) ≤ cl) :
    LK3 p src dst cl = 0 := by
  unfold LK3; omega

set_option maxHeartbeats 2000000 in
/-- The loop recurrence of `LK3`. -/
theorem LK3_step (p src dst x : Nat) (hdvd : 16384 ∣ x) (hpdvd : 16384 ∣ p) (hpx : p ≤ x)
    (hxdst : x < dst) (hxlt : x < p + 2097152) :
    LK3 p src dst x =
      (if src ≤ x then 1 else 0) + K2 src dst x + LK3 p src dst (min dst (x + 16384)) := by
  obtain ⟨y, hy⟩ := hdvd
  obtain ⟨z, hz⟩ := hpdvd
  unfold LK3 K2
  by_cases hs : src ≤ x
  · rw [if_pos hs]; omega
  · rw [if_neg hs]; omega

/-- `LK3` at the loop start equals the whole-subtree count `K3`. -/
theorem LK3_eq_K3 (src dst cl : Nat) : LK3 cl src dst cl = K3 src dst cl := rfl

/-- Depth 0 of `build_tree`: a leaf just advances the counter. -/
theorem buildTree_zero_spec (src dst : Nat) (d : Disk) (l : List Nat) (bid cl : Nat)
    (hlt : cl < dst) :
    buildTree src dst 0 d l bid cl = some (d, min dst (cl + 1), l.drop 0) := by
  rw [buildTree, Nat.min_eq_right (by omega), List.drop_zero]

/-- Depth 1 of `build_tree` fills leaves `[max cl src, min dst (cl + 128))`,
consuming `K1` ids. -/
theorem buildTree_one_spec (src dst : Nat) :
    ∀ (d : Disk) (l : List Nat) (bid cl : Nat), 128 ∣ cl → cl < dst →
      K1 src dst cl ≤ l.length →
      ∃ d', buildTree src dst 1 d l bid cl =
        some (d', min dst (cl + 128), l.drop (K1 src dst cl)) := by
  intro d l bid cl _hdvd hlt hl
  have h := buildTreeStep_spec (fun d bs bid2 cl2 => buildTree src dst 0 d bs bid2 cl2)
    src dst bid cl 1 (fun _ => 0) (LK1 cl src dst) one_pos (one_dvd _)
    (fun d2 l2 bid2 cl2 _ hlt2 _ => ⟨d2, buildTree_zero_spec src dst d2 l2 bid2 cl2 hlt2⟩)
    (fun x hx => LK1_stop cl src dst x (by omega))
    (fun x _ hpx hxdst hxlt => LK1_step cl src dst x hpx hxdst (by omega))
    128 0 d l (by norm_num)
  simp only [Nat.zero_mul, Nat.add_zero, Nat.mul_one] at h
  rw [LK1_eq_K1] at h
  obtain ⟨d', h⟩ := h hl
  refine ⟨d', ?_⟩
  have hrw : buildTree src dst 1 d l bid cl =
      buildTreeStep (fun d bs bid2 cl2 => buildTree src dst 0 d bs bid2 cl2)
        src dst bid 128 0 cl d l := rfl
  rw [hrw, h]
  have hmax : max cl (min dst (cl + 128)) = min dst (cl + 128) := by omega
  rw [hmax]

/-- Depth 2 of `build_tree` consumes `K2` ids: new leaves plus one id per
newly visited 128-aligned child base. -/
theorem buildTree_two_spec (src dst : Nat) :
    ∀ (d : Disk) (l : List Nat) (bid cl : Nat), 16384 ∣ cl → cl < dst →
      K2 src dst cl ≤ l.length →
      ∃ d', buildTree src dst 2 d l bid cl =
        some (d', min dst (cl + 16384), l.drop (K2 src dst cl)) := by
  intro d l bid cl hdvd hlt hl
  have h := buildTreeStep_spec (fun d bs bid2 cl2 => buildTree src dst 1 d bs bid2 cl2)
    src dst bid cl 128 (K1 src dst) (LK2 cl src dst) (by norm_num)
    (dvd_trans (show (128 : Nat) ∣ 16384 by norm_num) hdvd)
    (fun d2 l2 bid2 cl2 hdvd2 hlt2 hlen2 =>
      buildTree_one_spec src dst d2 l2 bid2 cl2 hdvd2 hlt2 hlen2)
    (fun x hx => LK2_stop cl src dst x (by omega))
    (fun x hxdvd hpx hxdst hxlt => LK2_step cl src dst x hxdvd
      (dvd_trans (show (128 : Nat) ∣ 16384 by norm_num) hdvd) hpx hxdst (by omega))
    128 0 d l (by norm_num)
  simp only [Nat.zero_mul, Nat.add_zero] at h
  have h1282 : 128 * 128 = 16384 := by norm_num
  rw [h1282, LK2_eq_K2] at h
  obtain ⟨d', h⟩ := h hl
  refine ⟨d', ?_⟩
  have hrw : buildTree src dst 2 d l bid cl =
      buildTreeStep (fun d bs bid2 cl2 => buildTree src dst 1 d bs bid2 cl2)
        src dst bid 128 0 cl d l := rfl
  rw [hrw, h]
  have hmax : max cl (min dst (cl + 16384)) = min dst (cl + 16384) := by omega
  rw [hmax]

/-- Depth 3 of `build_tree` consumes `K3` ids: new leaves plus new
128-aligned children plus new 16384-aligned children. -/
theorem buildTree_three_spec (src dst : Nat) :
    ∀ (d : Disk) (l : List Nat) (bid cl : Nat), 2097152 ∣ cl → cl < dst →
      K3 src dst cl ≤ l.length →
      ∃ d', buildTree src dst 3 d l bid cl =
        some (d', min dst (cl + 2097152), l.drop (K3 src dst cl)) := by
  intro d l bid cl hdvd hlt hl
  have h := buildTreeStep_spec (fun d bs bid2 cl2 => buildTree src dst 2 d bs bid2 cl2)
    src dst bid cl 16384 (K2 src dst) (LK3 cl src dst) (by norm_num)
    (dvd_trans (show (16384 : Nat) ∣ 2097152 by norm_num) hdvd)
    (fun d2 l2 bid2 cl2 hdvd2 hlt2 hlen2 =>
      buildTree_two_spec src dst d2 l2 bid2 cl2 hdvd2 hlt2 hlen2)
    (fun x hx => LK3_stop cl src dst x (by omega))
    (fun x hxdvd hpx hxdst hxlt => LK3_step cl src dst x hxdvd
      (dvd_trans (show (16384 : Nat) ∣ 2097152 by norm_num) hdvd) hpx hxdst (by omega))
    128 0 d l (by norm_num)
  simp only [Nat.zero_mul, Nat.add_zero] at h
  have h1283 : 128 * 16384 = 2097152 := by norm_num
  rw [h1283, LK3_eq_K3] at h
  obtain ⟨d', h⟩ := h hl
  refine ⟨d', ?_⟩
  have hrw : buildTree src dst 3 d l bid cl =
      buildTreeStep (fun d bs bid2 cl2 => buildTree src dst 2 d bs bid2 cl2)
        src dst bid 128 0 cl d l := rfl
  rw [hrw, h]
  have hmax : max cl (min dst (cl + 2097152)) = min dst (cl + 2097152) := by omega
  rw [hmax]

/-! ### Consumption of each tier section of `increase_size` -/

/-- The indirect3 section consumes exactly `consumedInd3 cur tot` ids. -/
theorem increaseSizeInd3_spec (st : DiskInode) (d : Disk) (cur tot : Nat) (l : List Nat)
    (hlen : consumedInd3 cur tot ≤ l.length) :
    ∃ st' d', increaseSizeInd3 st d cur tot l =
      some (st', d', l.drop (consumedInd3 cur tot)) := by
  by_cases hg : INODE_INDIRECT2_COUNT < tot
  · have hdst : 0 < tot - INODE_INDIRECT2_COUNT := by
      rw [INODE_INDIRECT2_COUNT_eq] at hg ⊢; omega
    by_cases hr : cur = INODE_INDIRECT2_COUNT
    · have hc3 : consumedInd3 cur tot =
          1 + K3 (cur - INODE_INDIRECT2_COUNT) (tot - INODE_INDIRECT2_COUNT) 0 := by
        unfold consumedInd3; rw [if_pos hg, if_pos hr]
      rcases l with _ | ⟨x, l2⟩
      · exfalso; rw [hc3] at hlen; simp only [List.length_nil] at hlen; omega
      obtain ⟨d3, hbt⟩ := buildTree_three_spec (cur - INODE_INDIRECT2_COUNT)
        (tot - INODE_INDIRECT2_COUNT) d l2 x 0 (dvd_zero _) hdst
        (by rw [hc3] at hlen; simp only [List.length_cons] at hlen; omega)
      refine ⟨{ st with indirect3 := x }, d3, ?_⟩
      rw [hc3, Nat.add_comm, List.drop_succ_cons]
      unfold increaseSizeInd3
      rw [if_pos hg, if_pos hr]
      have hnext : nextBlock (x :: l2) = some (x, l2) := rfl
      rw [hnext, Option.some_bind, Option.some_bind, hbt, Option.some_bind]
    · have hc3 : consumedInd3 cur tot =
          K3 (cur - INODE_INDIRECT2_COUNT) (tot - INODE_INDIRECT2_COUNT) 0 := by
        unfold consumedInd3; rw [if_pos hg, if_neg hr]; omega
      obtain ⟨d3, hbt⟩ := buildTree_three_spec (cur - INODE_INDIRECT2_COUNT)
        (tot - INODE_INDIRECT2_COUNT) d l st.indirect3 0 (dvd_zero _) hdst
        (by rw [hc3] at hlen; omega)
      refine ⟨st, d3, ?_⟩
      rw [hc3]
      unfold increaseSizeInd3
      rw [if_pos hg, if_neg hr, Option.some_bind, hbt, Option.some_bind]
  · have hc3 : consumedInd3 cur tot = 0 := by unfold consumedInd3; rw [if_neg hg]
    refine ⟨st, d, ?_⟩
    unfold increaseSizeInd3
    rw [if_neg hg, hc3, List.drop_zero]

/-- The indirect2 section (root draw, two-level fill, then the indirect3
section) consumes exactly `consumedInd2 cur tot` ids. -/
theorem increaseSizeInd2_spec (st : DiskInode) (d : Disk) (cur tot : Nat) (l : List Nat)
    (hlen : consumedInd2 cur tot ≤ l.length) :
    ∃ st' d', increaseSizeInd2 st d cur tot l =
      some (st', d', l.drop (consumedInd2 cur tot)) := by
  have hI1 : INODE_INDIRECT1_COUNT = 128 := rfl
  have hI2 : INODE_INDIRECT2_COUNT = 16384 := rfl
  by_cases hg : INODE_INDIRECT1_COUNT < tot
  · have hfill : ∀ (st1 : DiskInode) (l1 : List Nat),
        (min (tot - INODE_INDIRECT1_COUNT) INODE_INDIRECT2_COUNT -
            (cur - INODE_INDIRECT1_COUNT)) +
          ((min (tot - INODE_INDIRECT1_COUNT) INODE_INDIRECT2_COUNT + 127) / 128 -
            (cur - INODE_INDIRECT1_COUNT + 127) / 128) +
          consumedInd3
            (max (cur - INODE_INDIRECT1_COUNT)
              (min (tot - INODE_INDIRECT1_COUNT) INODE_INDIRECT2_COUNT))
            (tot - INODE_INDIRECT1_COUNT) ≤ l1.length →
        ∃ st' d', ((fillIndirect2
            (decompose2 (min (tot - INODE_INDIRECT1_COUNT) INODE_INDIRECT2_COUNT)).1
            (decompose2 (min (tot - INODE_INDIRECT1_COUNT) INODE_INDIRECT2_COUNT)).2
            st1.indirect2 (INODE_INDIRECT2_COUNT + 1)
            (decompose2 (cur - INODE_INDIRECT1_COUNT)).1
            (decompose2 (cur - INODE_INDIRECT1_COUNT)).2
            (cur - INODE_INDIRECT1_COUNT) d l1).bind fun r =>
          increaseSizeInd3 st1 r.1 r.2.1 (tot - INODE_INDIRECT1_COUNT) r.2.2) =
          some (st', d',
            l1.drop ((min (tot - INODE_INDIRECT1_COUNT) INODE_INDIRECT2_COUNT -
                (cur - INODE_INDIRECT1_COUNT)) +
              ((min (tot - INODE_INDIRECT1_COUNT) INODE_INDIRECT2_COUNT + 127) / 128 -
                (cur - INODE_INDIRECT1_COUNT + 127) / 128) +
              consumedInd3
                (max (cur - INODE_INDIRECT1_COUNT)
                  (min (tot - INODE_INDIRECT1_COUNT) INODE_INDIRECT2_COUNT))
                (tot - INODE_INDIRECT1_COUNT))) := by
      intro st1 l1 hlen1
      obtain ⟨d2, hf2⟩ := fillIndirect2_spec st1.indirect2
        (decompose2 (min (tot - INODE_INDIRECT1_COUNT) INODE_INDIRECT2_COUNT)).1
        (decompose2 (min (tot - INODE_INDIRECT1_COUNT) INODE_INDIRECT2_COUNT)).2
        (min (tot - INODE_INDIRECT1_COUNT) INODE_INDIRECT2_COUNT)
        (Nat.mod_lt _ (by decide)) (Nat.div_add_mod _ 128)
        (INODE_INDIRECT2_COUNT + 1)
        (decompose2 (cur - INODE_INDIRECT1_COUNT)).1
        (decompose2 (cur - INODE_INDIRECT1_COUNT)).2
        (cur - INODE_INDIRECT1_COUNT) d l1 rfl rfl
        (by rw [hI2]; omega) (by omega)
      rw [hf2, Option.some_bind]
      obtain ⟨st', d3, h3⟩ := increaseSizeInd3_spec st1 d2
        (max (cur - INODE_INDIRECT1_COUNT)
          (min (tot - INODE_INDIRECT1_COUNT) INODE_INDIRECT2_COUNT))
        (tot - INODE_INDIRECT1_COUNT)
        (l1.drop ((min (tot - INODE_INDIRECT1_COUNT) INODE_INDIRECT2_COUNT -
            (cur - INODE_INDIRECT1_COUNT)) +
          ((min (tot - INODE_INDIRECT1_COUNT) INODE_INDIRECT2_COUNT + 127) / 128 -
            (cur - INODE_INDIRECT1_COUNT + 127) / 128)))
        (by rw [List.length_drop]; omega)
      refine ⟨st', d3, ?_⟩
      rw [h3, List.drop_drop]
    by_cases hr : cur = INODE_INDIRECT1_COUNT
    · have hc2 : consumedInd2 cur tot =
          1 + ((min (tot - INODE_INDIRECT1_COUNT) INODE_INDIRECT2_COUNT -
              (cur - INODE_INDIRECT1_COUNT)) +
            ((min (tot - INODE_INDIRECT1_COUNT) INODE_INDIRECT2_COUNT + 127) / 128 -
              (cur - INODE_INDIRECT1_COUNT + 127) / 128) +
            consumedInd3
              (max (cur - INODE_INDIRECT1_COUNT)
                (min (tot - INODE_INDIRECT1_COUNT) INODE_INDIRECT2_COUNT))
              (tot - INODE_INDIRECT1_COUNT)) := by
        unfold consumedInd2; rw [if_pos hg, if_pos hr]; omega
      rcases l with _ | ⟨x, l2⟩
      · exfalso; rw [hc2] at hlen; simp only [List.length_nil] at hlen; omega
      obtain ⟨st', d', hrest⟩ := hfill { st with indirect2 := x } l2
        (by rw [hc2] at hlen; simp only [List.length_cons] at hlen; omega)
      refine ⟨st', d', ?_⟩
      rw [hc2, Nat.add_comm, List.drop_succ_cons]
      unfold increaseSizeInd2
      rw [if_pos hg, if_pos hr]
      have hnext : nextBlock (x :: l2) = some (x, l2) := rfl
      rw [hnext, Option.some_bind, Option.some_bind]
      exact hrest
    · have hc2 : consumedInd2 cur tot =
          (min (tot - INODE_INDIRECT1_COUNT) INODE_INDIRECT2_COUNT -
              (cur - INODE_INDIRECT1_COUNT)) +
            ((min (tot - INODE_INDIRECT1_COUNT) INODE_INDIRECT2_COUNT + 127) / 128 -
              (cur - INODE_INDIRECT1_COUNT + 127) / 128) +
            consumedInd3
              (max (cur - INODE_INDIRECT1_COUNT)
                (min (tot - INODE_INDIRECT1_COUNT) INODE_INDIRECT2_COUNT))
              (tot - INODE_INDIRECT1_COUNT) := by
        unfold consumedInd2; rw [if_pos hg, if_neg hr]; omega
      obtain ⟨st', d', hrest⟩ := hfill st l (by rw [hc2] at hlen; omega)
      refine ⟨st', d', ?_⟩
      rw [hc2]
      unfold increaseSizeInd2
      rw [if_pos hg, if_neg hr, Option.some_bind]
      exact hrest
  · have hc2 : consumedInd2 cur tot = 0 := by unfold consumedInd2; rw [if_neg hg]
    refine ⟨st, d, ?_⟩
    unfold increaseSizeInd2
    rw [if_neg hg, hc2, List.drop_zero]

/-- The indirect1 section (root draw, fill, then the deeper sections)
consumes exactly `consumedTiers cur tot` ids. -/
theorem increaseSizeTiers_spec (st : DiskInode) (d : Disk) (cur tot : Nat) (l : List Nat)
    (hlen : consumedTiers cur tot ≤ l.length) :
    ∃ st' d', increaseSizeTiers st d cur tot l =
      some (st', d', l.drop (consumedTiers cur tot)) := by
  have hI1 : INODE_INDIRECT1_COUNT = 128 := rfl
  by_cases hg : INODE_DIRECT_COUNT < tot
  · have hfill : ∀ (st1 : DiskInode) (l1 : List Nat),
        (min (tot - INODE_DIRECT_COUNT) INODE_INDIRECT1_COUNT -
            (cur - INODE_DIRECT_COUNT)) +
          consumedInd2
            (max (cur - INODE_DIRECT_COUNT)
              (min (tot - INODE_DIRECT_COUNT) INODE_INDIRECT1_COUNT))
            (tot - INODE_DIRECT_COUNT) ≤ l1.length →
        ∃ st' d', ((fillIndirect1 (tot - INODE_DIRECT_COUNT) st1.indirect1
            (INODE_INDIRECT1_COUNT + 1) (cur - INODE_DIRECT_COUNT) d l1).bind fun r =>
          increaseSizeInd2 st1 r.1 r.2.1 (tot - INODE_DIRECT_COUNT) r.2.2) =
          some (st', d',
            l1.drop ((min (tot - INODE_DIRECT_COUNT) INODE_INDIRECT1_COUNT -
                (cur - INODE_DIRECT_COUNT)) +
              consumedInd2
                (max (cur - INODE_DIRECT_COUNT)
                  (min (tot - INODE_DIRECT_COUNT) INODE_INDIRECT1_COUNT))
                (tot - INODE_DIRECT_COUNT))) := by
      intro st1 l1 hlen1
      obtain ⟨d2, hf1⟩ := fillIndirect1_spec (tot - INODE_DIRECT_COUNT) st1.indirect1
        (INODE_INDIRECT1_COUNT + 1) (cur - INODE_DIRECT_COUNT) d l1
        (by rw [hI1]; omega) (by omega)
      rw [hf1, Option.some_bind]
      obtain ⟨st', d3, h3⟩ := increaseSizeInd2_spec st1 d2
        (max (cur - INODE_DIRECT_COUNT)
          (min (tot - INODE_DIRECT_COUNT) INODE_INDIRECT1_COUNT))
        (tot - INODE_DIRECT_COUNT)
        (l1.drop (min (tot - INODE_DIRECT_COUNT) INODE_INDIRECT1_COUNT -
          (cur - INODE_DIRECT_COUNT)))
        (by rw [List.length_drop]; omega)
      refine ⟨st', d3, ?_⟩
      rw [h3, List.drop_drop]
    by_cases hr : cur = INODE_DIRECT_COUNT
    · have hc1 : consumedTiers cur tot =
          1 + ((min (tot - INODE_DIRECT_COUNT) INODE_INDIRECT1_COUNT -
              (cur - INODE_DIRECT_COUNT)) +
            consumedInd2
              (max (cur - INODE_DIRECT_COUNT)
                (min (tot - INODE_DIRECT_COUNT) INODE_INDIRECT1_COUNT))
              (tot - INODE_DIRECT_COUNT)) := by
        unfold consumedTiers; rw [if_pos hg, if_pos hr]; omega
      rcases l with _ | ⟨x, l2⟩
      · exfalso; rw [hc1] at hlen; simp only [List.length_nil] at hlen; omega
      obtain ⟨st', d', hrest⟩ := hfill { st with indirect1 := x } l2
        (by rw [hc1] at hlen; simp only [List.length_cons] at hlen; omega)
      refine ⟨st', d', ?_⟩
      rw [hc1, Nat.add_comm, List.drop_succ_cons]
      unfold increaseSizeTiers
      rw [if_pos hg, if_pos hr]
      have hnext : nextBlock (x :: l2) = some (x, l2) := rfl
      rw [hnext, Option.some_bind, Option.some_bind]
      exact hrest
    · have hc1 : consumedTiers cur tot =
          (min (tot - INODE_DIRECT_COUNT) INODE_INDIRECT1_COUNT -
              (cur - INODE_DIRECT_COUNT)) +
            consumedInd2
              (max (cur - INODE_DIRECT_COUNT)
                (min (tot - INODE_DIRECT_COUNT) INODE_INDIRECT1_COUNT))
              (tot - INODE_DIRECT_COUNT) := by
        unfold consumedTiers; rw [if_pos hg, if_neg hr]; omega
      obtain ⟨st', d', hrest⟩ := hfill st l (by rw [hc1] at hlen; omega)
      refine ⟨st', d', ?_⟩
      rw [hc1]
      unfold increaseSizeTiers
      rw [if_pos hg, if_neg hr, Option.some_bind]
      exact hrest
  · have hc1 : consumedTiers cur tot = 0 := by unfold consumedTiers; rw [if_neg hg]
    refine ⟨st, d, ?_⟩
    unfold increaseSizeTiers
    rw [if_neg hg, hc1, List.drop_zero]

/-- `increase_size` consumes exactly `consumedTotal` ids, never drawing from
an exhausted sequence, whenever the sequence is long enough. -/
theorem increaseSize_consumption (st : DiskInode) (d : Disk) (new_size : Nat)
    (l : List Nat)
    (hlen : consumedTotal (_data_blocks st.size) (_data_blocks new_size) ≤ l.length) :
    ∃ st' d', increaseSize st d new_size l =
      some (st', d', l.drop (consumedTotal (_data_blocks st.size) (_data_blocks new_size))) := by
  have hIDC : INODE_DIRECT_COUNT = 27 := rfl
  have hct : consumedTotal (_data_blocks st.size) (_data_blocks new_size) =
      (min (_data_blocks new_size) INODE_DIRECT_COUNT - _data_blocks st.size) +
        consumedTiers
          (max (_data_blocks st.size) (min (_data_blocks new_size) INODE_DIRECT_COUNT))
          (_data_blocks new_size) := rfl
  rw [hct] at hlen ⊢
  obtain ⟨dir1, hfd⟩ := fillDirect_spec (_data_blocks new_size) (INODE_DIRECT_COUNT + 1)
    (_data_blocks st.size) st.direct l (by rw [hIDC]; omega) (by omega)
  unfold increaseSize
  rw [hfd, Option.some_bind]
  obtain ⟨st', d', hts⟩ := increaseSizeTiers_spec
    { st with size := new_size, direct := dir1 } d
    (max (_data_blocks st.size) (min (_data_blocks new_size) INODE_DIRECT_COUNT))
    (_data_blocks new_size)
    (l.drop (min (_data_blocks new_size) INODE_DIRECT_COUNT - _data_blocks st.size))
    (by rw [List.length_drop]; omega)
  refine ⟨st', d', ?_⟩
  rw [hts, List.drop_drop]

set_option maxHeartbeats 4000000 in
/-- Growing from `b0` to `b1` data blocks consumes exactly the difference of
`total_blocks`: the block accounting and the growth algorithm agree tier by
tier, for every `b1` within the addressable tree
(`b1 ≤ 27 + 128 + 128 ^ 2 + 128 ^ 3 = 2113691`). -/
theorem consumedTotal_eq_total_diff (b0 b1 : Nat) (h01 : b0 ≤ b1) (hmax : b1 ≤ 2113691) :
    totalBlocksFromData b0 + consumedTotal b0 b1 = totalBlocksFromData b1 := by
  have hgoal : True := trivial
  unfold totalBlocksFromData consumedTotal consumedTiers consumedInd2 consumedInd3 K3
  simp only [INODE_DIRECT_COUNT_eq, INDIRECT1_BOUND_eq, INDIRECT2_BOUND_eq,
    INODE_INDIRECT1_COUNT_eq, INODE_INDIRECT2_COUNT_eq, INODE_INDIRECT3_COUNT_eq,
    gt_iff_lt]
  by_cases hb1a : b1 ≤ 27
  · simp only [
        if_neg (show ¬ (27 < b1) by omega),
        if_neg (show ¬ (27 < b0) by omega),
        if_neg (show ¬ (155 < b1) by omega),
        if_neg (show ¬ (155 < b0) by omega),
        if_neg (show ¬ (16539 < b1) by omega),
        if_neg (show ¬ (16539 < b0) by omega)] at hgoal ⊢
    clear hgoal
    omega
  · by_cases hb1b : b1 ≤ 155
    · by_cases hb00 : b0 ≤ 27
      · simp only [
            if_pos (show 27 < b1 by omega),
            if_neg (show ¬ (27 < b0) by omega),
            if_neg (show ¬ (155 < b1) by omega),
            if_neg (show ¬ (155 < b0) by omega),
            if_neg (show ¬ (16539 < b1) by omega),
            if_neg (show ¬ (16539 < b0) by omega),
            if_pos (show max b0 (min b1 27) = 27 by omega),
            if_neg (show ¬ (128 < b1 - 27) by omega)] at hgoal ⊢
        clear hgoal
        omega
      · simp only [
            if_pos (show 27 < b1 by omega),
            if_pos (show 27 < b0 by omega),
            if_neg (show ¬ (155 < b1) by omega),
            if_neg (show ¬ (155 < b0) by omega),
            if_neg (show ¬ (16539 < b1) by omega),
            if_neg (show ¬ (16539 < b0) by omega),
            if_neg (show ¬ (max b0 (min b1 27) = 27) by omega),
            if_neg (show ¬ (128 < b1 - 27) by omega)] at hgoal ⊢
        clear hgoal
        omega
    · by_cases hb1c : b1 ≤ 16539
      · by_cases hb00 : b0 ≤ 27
        · simp only [
              if_pos (show 27 < b1 by omega),
              if_neg (show ¬ (27 < b0) by omega),
              if_pos (show 155 < b1 by omega),
              if_neg (show ¬ (155 < b0) by omega),
              if_neg (show ¬ (16539 < b1) by omega),
              if_neg (show ¬ (16539 < b0) by omega),
              if_pos (show max b0 (min b1 27) = 27 by omega),
              if_pos (show 128 < b1 - 27 by omega),
              if_pos (show max (max b0 (min b1 27) - 27) (min (b1 - 27) 128) = 128 by omega),
              if_neg (show ¬ (16384 < b1 - 27 - 128) by omega)] at hgoal ⊢
          clear hgoal
          omega
        · by_cases hb01 : b0 ≤ 155
          · simp only [
                if_pos (show 27 < b1 by omega),
                if_pos (show 27 < b0 by omega),
                if_pos (show 155 < b1 by omega),
                if_neg (show ¬ (155 < b0) by omega),
                if_neg (show ¬ (16539 < b1) by omega),
                if_neg (show ¬ (16539 < b0) by omega),
                if_neg (show ¬ (max b0 (min b1 27) = 27) by omega),
                if_pos (show 128 < b1 - 27 by omega),
                if_pos (show max (max b0 (min b1 27) - 27) (min (b1 - 27) 128) = 128 by omega),
                if_neg (show ¬ (16384 < b1 - 27 - 128) by omega)] at hgoal ⊢
            clear hgoal
            omega
          · simp only [
                if_pos (show 27 < b1 by omega),
                if_pos (show 27 < b0 by omega),
                if_pos (show 155 < b1 by omega),
                if_pos (show 155 < b0 by omega),
                if_neg (show ¬ (16539 < b1) by omega),
                if_neg (show ¬ (16539 < b0) by omega),
                if_neg (show ¬ (max b0 (min b1 27) = 27) by omega),
                if_pos (show 128 < b1 - 27 by omega),
                if_neg (show ¬ (max (max b0 (min b1 27) - 27) (min (b1 - 27) 128) = 128) by omega),
                if_neg (show ¬ (16384 < b1 - 27 - 128) by omega)] at hgoal ⊢
            clear hgoal
            omega
      · by_cases hb00 : b0 ≤ 27
        · simp only [
              if_pos (show 27 < b1 by omega),
              if_neg (show ¬ (27 < b0) by omega),
              if_pos (show 155 < b1 by omega),
              if_neg (show ¬ (155 < b0) by omega),
              if_pos (show 16539 < b1 by omega),
              if_neg (show ¬ (16539 < b0) by omega),
              if_pos (show max b0 (min b1 27) = 27 by omega),
              if_pos (show 128 < b1 - 27 by omega),
              if_pos (show max (max b0 (min b1 27) - 27) (min (b1 - 27) 128) = 128 by omega),
              if_pos (show 16384 < b1 - 27 - 128 by omega),
              if_pos (show max (max (max b0 (min b1 27) - 27) (min (b1 - 27) 128) - 128) (min (b1 - 27 - 128) 16384) = 16384 by omega)] at hgoal ⊢
          have e1 : max b0 (min b1 27) = 27 := by omega
          rw [e1]
          clear e1
          have e2 : min (b1 - 27) 128 = 128 := by omega
          rw [e2]
          clear e2
          have e3 : max (27 - 27) 128 = 128 := by norm_num
          rw [e3]
          clear e3
          have e4 : min (b1 - 27 - 128) 16384 = 16384 := by omega
          rw [e4]
          clear e4
          have e5 : max (128 - 128) 16384 = 16384 := by norm_num
          rw [e5]
          clear e5
          have e6 : min (b1 - 27 - 128 - 16384) (0 + 2097152) = b1 - 16539 := by omega
          rw [e6]
          clear e6
          have e7 : max 0 (16384 - 16384) = 0 := by norm_num
          rw [e7]
          clear e7
          have e8 : min 0 (b1 - 16539) = 0 := by omega
          rw [e8]
          clear e8
          have e9 : min ((b1 - 155 + 128 - 1) / 128) 128 = 128 := by omega
          rw [e9]
          clear e9
          have e10 : b1 - 16539 + 128 - 1 = b1 - 16539 + 127 := by omega
          rw [e10]
          clear e10
          have e11 : b1 - 16539 + 16384 - 1 = b1 - 16539 + 16383 := by omega
          rw [e11]
          clear e11
          clear hgoal
          omega
        · by_cases hb01 : b0 ≤ 155
          · simp only [
                if_pos (show 27 < b1 by omega),
                if_pos (show 27 < b0 by omega),
                if_pos (show 155 < b1 by omega),
                if_neg (show ¬ (155 < b0) by omega),
                if_pos (show 16539 < b1 by omega),
                if_neg (show ¬ (16539 < b0) by omega),
                if_neg (show ¬ (max b0 (min b1 27) = 27) by omega),
                if_pos (show 128 < b1 - 27 by omega),
                if_pos (show max (max b0 (min b1 27) - 27) (min (b1 - 27) 128) = 128 by omega),
                if_pos (show 16384 < b1 - 27 - 128 by omega),
                if_pos (show max (max (max b0 (min b1 27) - 27) (min (b1 - 27) 128) - 128) (min (b1 - 27 - 128) 16384) = 16384 by omega)] at hgoal ⊢
            have e1 : max b0 (min b1 27) = b0 := by omega
            rw [e1]
            clear e1
            have e2 : min (b1 - 27) 128 = 128 := by omega
            rw [e2]
            clear e2
            have e3 : max (b0 - 27) 128 = 128 := by omega
            rw [e3]
            clear e3
            have e4 : min (b1 - 27 - 128) 16384 = 16384 := by omega
            rw [e4]
            clear e4
            have e5 : max (128 - 128) 16384 = 16384 := by norm_num
            rw [e5]
            clear e5
            have e6 : min (b1 - 27 - 128 - 16384) (0 + 2097152) = b1 - 16539 := by omega
            rw [e6]
            clear e6
            have e7 : max 0 (16384 - 16384) = 0 := by norm_num
            rw [e7]
            clear e7
            have e8 : min 0 (b1 - 16539) = 0 := by omega
            rw [e8]
            clear e8
            have e9 : min ((b1 - 155 + 128 - 1) / 128) 128 = 128 := by omega
            rw [e9]
            clear e9
            have e10 : b1 - 16539 + 128 - 1 = b1 - 16539 + 127 := by omega
            rw [e10]
            clear e10
            have e11 : b1 - 16539 + 16384 - 1 = b1 - 16539 + 16383 := by omega
            rw [e11]
            clear e11
            clear hgoal
            omega
          · by_cases hb02 : b0 ≤ 16539
            · simp only [
                  if_pos (show 27 < b1 by omega),
                  if_pos (show 27 < b0 by omega),
                  if_pos (show 155 < b1 by omega),
                  if_pos (show 155 < b0 by omega),
                  if_pos (show 16539 < b1 by omega),
                  if_neg (show ¬ (16539 < b0) by omega),
                  if_neg (show ¬ (max b0 (min b1 27) = 27) by omega),
                  if_pos (show 128 < b1 - 27 by omega),
                  if_neg (show ¬ (max (max b0 (min b1 27) - 27) (min (b1 - 27) 128) = 128) by omega),
                  if_pos (show 16384 < b1 - 27 - 128 by omega),
                  if_pos (show max (max (max b0 (min b1 27) - 27) (min (b1 - 27) 128) - 128) (min (b1 - 27 - 128) 16384) = 16384 by omega)] at hgoal ⊢
              have e1 : max b0 (min b1 27) = b0 := by omega
              rw [e1]
              clear e1
              have e2 : min (b1 - 27) 128 = 128 := by omega
              rw [e2]
              clear e2
              have e3 : max (b0 - 27) 128 = b0 - 27 := by omega
              rw [e3]
              clear e3
              have e4 : min (b1 - 27 - 128) 16384 = 16384 := by omega
              rw [e4]
              clear e4
              have e5 : max (b0 - 27 - 128) 16384 = 16384 := by omega
              rw [e5]
              clear e5
              have e6 : min (b1 - 27 - 128 - 16384) (0 + 2097152) = b1 - 16539 := by omega
              rw [e6]
              clear e6
              have e7 : max 0 (16384 - 16384) = 0 := by norm_num
              rw [e7]
              clear e7
              have e8 : min 0 (b1 - 16539) = 0 := by omega
              rw [e8]
              clear e8
              have e9 : min ((b1 - 155 + 128 - 1) / 128) 128 = 128 := by omega
              rw [e9]
              clear e9
              have e10 : b0 - 27 - 128 + 127 = b0 - 155 + 127 := by omega
              rw [e10]
              clear e10
              have e11 : min ((b0 - 155 + 128 - 1) / 128) 128 = (b0 - 155 + 128 - 1) / 128 := by omega
              rw [e11]
              clear e11
              have e12 : b0 - 155 + 128 - 1 = b0 - 155 + 127 := by omega
              rw [e12]
              clear e12
              have e13 : b1 - 16539 + 128 - 1 = b1 - 16539 + 127 := by omega
              rw [e13]
              clear e13
              have e14 : b1 - 16539 + 16384 - 1 = b1 - 16539 + 16383 := by omega
              rw [e14]
              clear e14
              clear hgoal
              omega
            · simp only [
                  if_pos (show 27 < b1 by omega),
                  if_pos (show 27 < b0 by omega),
                  if_pos (show 155 < b1 by omega),
                  if_pos (show 155 < b0 by omega),
                  if_pos (show 16539 < b1 by omega),
                  if_pos (show 16539 < b0 by omega),
                  if_neg (show ¬ (max b0 (min b1 27) = 27) by omega),
                  if_pos (show 128 < b1 - 27 by omega),
                  if_neg (show ¬ (max (max b0 (min b1 27) - 27) (min (b1 - 27) 128) = 128) by omega),
                  if_pos (show 16384 < b1 - 27 - 128 by omega),
                  if_neg (show ¬ (max (max (max b0 (min b1 27) - 27) (min (b1 - 27) 128) - 128) (min (b1 - 27 - 128) 16384) = 16384) by omega)] at hgoal ⊢
              have e1 : max b0 (min b1 27) = b0 := by omega
              rw [e1]
              clear e1
              have e2 : min (b1 - 27) 128 = 128 := by omega
              rw [e2]
              clear e2
              have e3 : max (b0 - 27) 128 = b0 - 27 := by omega
              rw [e3]
              clear e3
              have e4 : min (b1 - 27 - 128) 16384 = 16384 := by omega
              rw [e4]
              clear e4
              have e5 : max (b0 - 27 - 128) 16384 = b0 - 27 - 128 := by omega
              rw [e5]
              clear e5
              have e6 : min (b1 - 27 - 128 - 16384) (0 + 2097152) = b1 - 16539 := by omega
              rw [e6]
              clear e6
              have e7 : max 0 (b0 - 27 - 128 - 16384) = b0 - 27 - 128 - 16384 := by omega
              rw [e7]
              clear e7
              have e8 : min (b0 - 27 - 128 - 16384) (b1 - 16539) = b0 - 27 - 128 - 16384 := by omega
              rw [e8]
              clear e8
              have e9 : min ((b1 - 155 + 128 - 1) / 128) 128 = 128 := by omega
              rw [e9]
              clear e9
              have e9b : min ((b0 - 155 + 128 - 1) / 128) 128 = 128 := by omega
              rw [e9b]
              clear e9b
              have e12 : b0 - 27 - 128 - 16384 = b0 - 16539 := by omega
              rw [e12]
              clear e12
              have e13 : b1 - 16539 + 128 - 1 = b1 - 16539 + 127 := by omega
              rw [e13]
              clear e13
              have e14 : b1 - 16539 + 16384 - 1 = b1 - 16539 + 16383 := by omega
              rw [e14]
              clear e14
              have e15 : b0 - 16539 + 128 - 1 = b0 - 16539 + 127 := by omega
              rw [e15]
              clear e15
              have e16 : b0 - 16539 + 16384 - 1 = b0 - 16539 + 16383 := by omega
              rw [e16]
              clear e16
              clear hgoal
              omega

/-! ### Verification of the specification claims -/

/-- Helper: `get_block_id` succeeds on every logical block inside the
pointer tree's capacity. -/
theorem getBlockId_some (st : DiskInode) (d : Disk) (b : Nat)
    (h : b < INDIRECT2_BOUND + INODE_INDIRECT3_COUNT) :
    ∃ blk, getBlockId st d b = some blk := by
  unfold getBlockId
  rw [INDIRECT2_BOUND_eq, INODE_INDIRECT3_COUNT_eq] at h
  by_cases h1 : b < INODE_DIRECT_COUNT
  · rw [if_pos h1]
    exact ⟨_, rfl⟩
  · rw [if_neg h1]
    by_cases h2 : b < INDIRECT1_BOUND
    · rw [if_pos h2]
      exact ⟨_, rfl⟩
    · rw [if_neg h2]
      by_cases h3 : b < INDIRECT2_BOUND
      · rw [if_pos h3]
        exact ⟨_, rfl⟩
      · rw [if_neg h3]
        rw [if_pos (show (b - INDIRECT2_BOUND) / INODE_INDIRECT2_COUNT <
            INODE_INDIRECT1_COUNT by
          rw [INDIRECT2_BOUND_eq, INODE_INDIRECT2_COUNT_eq, INODE_INDIRECT1_COUNT_eq]
          omega)]
        exact ⟨_, rfl⟩

/-- Helper: `get_block_id` panics on every logical block past the capacity. -/
theorem getBlockId_none (st : DiskInode) (d : Disk) (b : Nat)
    (h : INDIRECT2_BOUND + INODE_INDIRECT3_COUNT ≤ b) :
    getBlockId st d b = none := by
  unfold getBlockId
  rw [INDIRECT2_BOUND_eq, INODE_INDIRECT3_COUNT_eq] at h
  rw [if_neg (show ¬ b < INODE_DIRECT_COUNT by rw [INODE_DIRECT_COUNT_eq]; omega),
    if_neg (show ¬ b < INDIRECT1_BOUND by rw [INDIRECT1_BOUND_eq]; omega),
    if_neg (show ¬ b < INDIRECT2_BOUND by rw [INDIRECT2_BOUND_eq]; omega),
    if_neg (show ¬ (b - INDIRECT2_BOUND) / INODE_INDIRECT2_COUNT < INODE_INDIRECT1_COUNT by
      rw [INDIRECT2_BOUND_eq, INODE_INDIRECT2_COUNT_eq, INODE_INDIRECT1_COUNT_eq]
      omega)]

/-- Helper: one step of the `write_at` chunk loop, as a definitional equation. -/
theorem writeLoop_succ (st : DiskInode) (d : Disk) (buf : List Nat)
    (end_ fuel start start_block write_size : Nat) (dd : DataDisk) :
    writeLoop st d buf end_ (fuel + 1) start start_block write_size dd =
      (let end_current_block := min ((start / BLOCK_SZ + 1) * BLOCK_SZ) end_
       let block_write_size := end_current_block - start
       (getBlockId st d start_block).bind fun blk =>
         let src := (buf.drop write_size).take block_write_size
         let dd := writeBytes blk (start % BLOCK_SZ) src dd
         let write_size := write_size + block_write_size
         if end_current_block = end_ then some (write_size, dd)
         else writeLoop st d buf end_ fuel end_current_block (start_block + 1) write_size dd) :=
  rfl

/-- Helper: one step of the `read_at` chunk loop, as a definitional equation. -/
theorem readLoop_succ (st : DiskInode) (d : Disk) (dd : DataDisk)
    (end_ fuel start start_block read_size : Nat) (acc : List Nat) :
    readLoop st d dd end_ (fuel + 1) start start_block read_size acc =
      (let end_current_block := min ((start / BLOCK_SZ + 1) * BLOCK_SZ) end_
       let block_read_size := end_current_block - start
       (getBlockId st d start_block).bind fun blk =>
         let acc := acc ++ readBytes blk dd (start % BLOCK_SZ) block_read_size
         let read_size := read_size + block_read_size
         if end_current_block = end_ then some (read_size, acc)
         else readLoop st d dd end_ fuel end_current_block (start_block + 1) read_size acc) :=
  rfl

/-- C3: `total_blocks(s)` is at least the data-block count `ceil(s/512)`, and
the excess is exactly the index-block count predicted by the tier rules of
the specification (section 4.3), as captured by `specIndexBlocks`. -/
theorem spec_c3 (s : Nat) :
    (s + 511) / 512 ≤ totalBlocks s ∧
      totalBlocks s = (s + 511) / 512 + specIndexBlocks s := by
  have key : totalBlocks s = (s + 511) / 512 + specIndexBlocks s := by
    unfold totalBlocks _data_blocks totalBlocksFromData specIndexBlocks
    simp only [BLOCK_SZ_eq, INODE_DIRECT_COUNT_eq, INDIRECT1_BOUND_eq, INDIRECT2_BOUND_eq,
      INODE_INDIRECT1_COUNT_eq, INODE_INDIRECT2_COUNT_eq, gt_iff_lt]
    have hs : s + 512 - 1 = s + 511 := by omega
    rw [hs]
    generalize (s + 511) / 512 = db
    have h1 : (27 : Nat) + 128 = 155 := by norm_num
    have h2 : (128 : Nat) * 128 = 16384 := by norm_num
    have h3 : (155 : Nat) + 16384 = 16539 := by norm_num
    simp only [h1, h2, h3]
    clear h1 h2 h3
    have e1 : db - 155 + 128 - 1 = db - 155 + 127 := by omega
    rw [e1]
    clear e1
    have e2 : db - 16539 + 16384 - 1 = db - 16539 + 16383 := by omega
    rw [e2]
    clear e2
    have e3 : db - 16539 + 128 - 1 = db - 16539 + 127 := by omega
    rw [e3]
    clear e3
    by_cases hA : 27 < db
    · by_cases hB : 155 < db
      · by_cases hC : 16539 < db
        · simp only [if_pos hA, if_pos hB, if_pos hC]
          omega
        · simp only [if_pos hA, if_pos hB, if_neg hC]
          omega
      · simp only [if_pos hA, if_neg hB, if_neg (show ¬ 16539 < db by omega)]
    · simp only [if_neg hA, if_neg (show ¬ 155 < db by omega),
        if_neg (show ¬ 16539 < db by omega)]
      omega
  refine ⟨?_, key⟩
  rw [key]
  exact Nat.le_add_right _ _

/-- C4: `blocks_num_needed(new_size)` is the difference of `total_blocks`
when `new_size` is at least the current size, and the assertion
`new_size >= size` fails (modelled as `none`) when `new_size` is smaller. -/
theorem spec_c4 (st : DiskInode) (ns : Nat) :
    (st.size ≤ ns → blocksNumNeeded st ns = some (totalBlocks ns - totalBlocks st.size)) ∧
      (ns < st.size → blocksNumNeeded st ns = none) := by
  constructor
  · intro h
    unfold blocksNumNeeded
    rw [if_pos h]
  · intro h
    unfold blocksNumNeeded
    rw [if_neg (by omega)]

/-- Witness for C4 at a concrete inode of size 1024: growing to 2048 needs
`total_blocks 2048 - total_blocks 1024` ids, shrinking to 512 is refused. -/
theorem spec_c4_witness :
    (({ size := 1024, direct := fun _ => 0, indirect1 := 0, indirect2 := 0, indirect3 := 0, isDirectory := false } : DiskInode).size ≤ 2048 ∧
        blocksNumNeeded { size := 1024, direct := fun _ => 0, indirect1 := 0, indirect2 := 0, indirect3 := 0, isDirectory := false } 2048 =
          some (totalBlocks 2048 -
            totalBlocks ({ size := 1024, direct := fun _ => 0, indirect1 := 0, indirect2 := 0, indirect3 := 0, isDirectory := false } : DiskInode).size)) ∧
      (512 < ({ size := 1024, direct := fun _ => 0, indirect1 := 0, indirect2 := 0, indirect3 := 0, isDirectory := false } : DiskInode).size ∧
        blocksNumNeeded { size := 1024, direct := fun _ => 0, indirect1 := 0, indirect2 := 0, indirect3 := 0, isDirectory := false } 512 = none) :=
  ⟨⟨by decide, (spec_c4 _ 2048).1 (by decide)⟩,
    ⟨by decide, (spec_c4 _ 512).2 (by decide)⟩⟩

/-- C5: growing an empty inode to exactly `27 * 512` bytes needs exactly 27
ids and leaves `indirect1 = 0`; growing one further byte needs exactly 2 more
ids, sets `indirect1` to the first of them (nonzero here), and again consumes
the sequence exactly. -/
theorem spec_c5 :
    blocksNumNeeded (DiskInode.initialized false) (27 * 512) = some 27 ∧
      (increaseSize (DiskInode.initialized false) zeroDisk (27 * 512)
          (List.range' 1 27)).map (fun t => (t.1.indirect1, t.2.2)) = some (0, []) ∧
      (increaseSize (DiskInode.initialized false) zeroDisk (27 * 512)
          (List.range' 1 27)).bind (fun t => blocksNumNeeded t.1 (27 * 512 + 1)) =
        some 2 ∧
      ((increaseSize (DiskInode.initialized false) zeroDisk (27 * 512)
          (List.range' 1 27)).bind
            (fun t => increaseSize t.1 t.2.1 (27 * 512 + 1) [28, 29])).map
          (fun t => (t.1.indirect1, t.2.2)) = some (28, []) := by
  refine ⟨by decide, by decide, by decide, by decide⟩

/-- C6 counterexample: `write_at` with `offset` strictly past the current
size is not silently clipped — the `assert!(start <= end)` fails (modelled
as `none`) on an inode of size 100 at offset 101. -/
theorem spec_c6_counterexample :
    writeAt
      { size := 100, direct := fun _ => 0, indirect1 := 0, indirect2 := 0,
        indirect3 := 0, isDirectory := false } zeroDisk zeroData 101 [7] = none := rfl

/-- C6 (amended): a `write_at` whose offset equals the current size is
clipped to the empty range as long as the file is strictly below the
addressable maximum: it returns 0 bytes written and leaves the data store
untouched (and `write_at` never modifies the inode).  At the exactly-full
maximal file even this zero-length write panics: the single chunk iteration
calls `get_block_id(size / 512)` on logical block `2113691`, which indexes
`indirect3[128]` out of bounds.  Offsets strictly past the size instead fail
the `assert!(start <= end)` (see the counterexample). -/
theorem spec_c6_amended (st : DiskInode) (d : Disk) (dd : DataDisk) (buf : List Nat) :
    (st.size < MAX_ADDRESSABLE_SIZE → writeAt st d dd st.size buf = some (0, dd)) ∧
      (st.size = MAX_ADDRESSABLE_SIZE → writeAt st d dd st.size buf = none) := by
  constructor
  · intro hsize
    rw [MAX_ADDRESSABLE_SIZE_eq] at hsize
    unfold writeAt
    simp only [BLOCK_SZ_eq]
    have hm : min (st.size + buf.length) st.size = st.size := by omega
    rw [hm, if_pos (le_refl st.size)]
    have hf : st.size - st.size = 0 := by omega
    rw [hf]
    rw [writeLoop_succ]
    simp only [BLOCK_SZ_eq]
    obtain ⟨blk, hblk⟩ := getBlockId_some st d (st.size / 512)
      (by rw [INDIRECT2_BOUND_eq, INODE_INDIRECT3_COUNT_eq]; omega)
    rw [hblk]
    simp only [Option.some_bind]
    have h1 : min ((st.size / 512 + 1) * 512) st.size = st.size := by omega
    rw [h1, hf]
    simp only [List.take_zero, writeBytes, Nat.add_zero, if_pos rfl, if_true]
  · intro hsize
    unfold writeAt
    simp only [BLOCK_SZ_eq]
    rw [hsize, MAX_ADDRESSABLE_SIZE_eq]
    have hm : min (1082209792 + buf.length) 1082209792 = 1082209792 := by omega
    rw [hm, if_pos (le_refl (1082209792 : Nat))]
    have hf : (1082209792 : Nat) - 1082209792 = 0 := by norm_num
    rw [hf]
    rw [writeLoop_succ]
    rw [getBlockId_none st d (1082209792 / 512)
      (by decide)]
    rfl

/-- Witness for C6: a size-100 file accepts the zero-length write at its
end, the exactly-maximal file panics on it. -/
theorem spec_c6_amended_witness :
    (({ size := 100, direct := fun _ => 0, indirect1 := 0, indirect2 := 0, indirect3 := 0, isDirectory := false } : DiskInode).size < MAX_ADDRESSABLE_SIZE ∧
      writeAt { size := 100, direct := fun _ => 0, indirect1 := 0, indirect2 := 0, indirect3 := 0, isDirectory := false } zeroDisk zeroData ({ size := 100, direct := fun _ => 0, indirect1 := 0, indirect2 := 0, indirect3 := 0, isDirectory := false } : DiskInode).size [7] = some (0, zeroData)) ∧
      (({ size := 1082209792, direct := fun _ => 0, indirect1 := 0, indirect2 := 0, indirect3 := 0, isDirectory := false } : DiskInode).size = MAX_ADDRESSABLE_SIZE ∧
        writeAt { size := 1082209792, direct := fun _ => 0, indirect1 := 0, indirect2 := 0, indirect3 := 0, isDirectory := false } zeroDisk zeroData ({ size := 1082209792, direct := fun _ => 0, indirect1 := 0, indirect2 := 0, indirect3 := 0, isDirectory := false } : DiskInode).size [7] = none) :=
  ⟨⟨by decide, (spec_c6_amended _ zeroDisk zeroData [7]).1 (by decide)⟩,
    ⟨by decide, (spec_c6_amended _ zeroDisk zeroData [7]).2 (by decide)⟩⟩

/-- C9 counterexample: `increase_size` called with a new size strictly
smaller than the current size does not abort — it silently proceeds,
overwriting the size field with the smaller value and consuming no ids
(inode of size 1024 shrunk to 512). -/
theorem spec_c9_counterexample :
    (increaseSize
        { size := 1024, direct := fun _ => 0, indirect1 := 0, indirect2 := 0,
          indirect3 := 0, isDirectory := false } zeroDisk 512 []).map
      (fun t => (t.1.size, t.2.2)) = some (512, []) := rfl

/-- C9 (amended): the `assert!(new_size >= self.size)` guarding shrinking
growth lives in `blocks_num_needed`, not in `increase_size`: for every new
size strictly smaller than the current size, `blocks_num_needed` aborts. -/
theorem spec_c9_amended (st : DiskInode) (ns : Nat) (h : ns < st.size) :
    blocksNumNeeded st ns = none := by
  unfold blocksNumNeeded
  rw [if_neg (by omega)]

/-- Witness for C9 at a concrete inode of size 1024 shrunk to 512. -/
theorem spec_c9_amended_witness :
    512 < ({ size := 1024, direct := fun _ => 0, indirect1 := 0, indirect2 := 0, indirect3 := 0, isDirectory := false } : DiskInode).size ∧
      blocksNumNeeded { size := 1024, direct := fun _ => 0, indirect1 := 0, indirect2 := 0, indirect3 := 0, isDirectory := false } 512 = none :=
  ⟨by decide, spec_c9_amended _ 512 (by decide)⟩

/-- Helper: the first zero of a zero-free list followed by a zero sits right
after the list. -/
theorem firstZero_append (l rest : List Nat) (h : ∀ b ∈ l, b ≠ 0) :
    firstZero (l ++ 0 :: rest) = some l.length := by
  induction l with
  | nil => rfl
  | cons a l ih =>
    have ha : a ≠ 0 := h a (List.mem_cons_self a l)
    have hl : ∀ b ∈ l, b ≠ 0 := fun b hb => h b (List.mem_cons_of_mem a hb)
    simp only [List.cons_append, firstZero, if_neg ha, List.append_eq]
    rw [ih hl]
    rfl

/-- C10 counterexample: `DirEntry::new` does not assert a 27-byte limit —
a 28-byte name (28 capital letters) is accepted, filling the name array
completely. -/
theorem spec_c10_counterexample :
    (DirEntry.new (List.replicate 28 65) 7).isSome = true := rfl

/-- C10 (amended): for names of at most 27 bytes `DirEntry::new` packs the
name left-justified with trailing zero padding plus the inode number, and
`name()` recovers the name (when the name itself has no zero byte); but the
bound actually enforced by the packing is 28 bytes (the array length), there
is no 27-byte assertion. -/
theorem spec_c10_amended (name : List Nat) (ino : Nat)
    (hlen : name.length ≤ NAME_LENGTH_LIMIT) (hnz : ∀ b ∈ name, b ≠ 0) :
    ∃ e, DirEntry.new name ino = some e ∧
      e.name = name ++ List.replicate (NAME_LENGTH_LIMIT + 1 - name.length) 0 ∧
      e.inode_number = ino ∧ DirEntry.decodeName e = some name := by
  have hlim : NAME_LENGTH_LIMIT = 27 := rfl
  rw [hlim] at hlen
  refine ⟨{ name := name ++ List.replicate (NAME_LENGTH_LIMIT + 1 - name.length) 0, inode_number := ino }, ?_, rfl, rfl, ?_⟩
  · unfold DirEntry.new
    rw [if_pos (by rw [hlim]; omega)]
  · unfold DirEntry.decodeName
    have hpad : NAME_LENGTH_LIMIT + 1 - name.length = (27 - name.length) + 1 := by
      rw [hlim]; omega
    simp only [hpad, List.replicate_succ]
    rw [firstZero_append name _ hnz]
    exact congrArg some (List.take_left name (0 :: List.replicate (27 - name.length) 0))

/-- Witness for C10 at the 3-byte name `foo` and inode number 7. -/
theorem spec_c10_amended_witness :
    ([102, 111, 111] : List Nat).length ≤ NAME_LENGTH_LIMIT ∧
      (∀ b ∈ ([102, 111, 111] : List Nat), b ≠ 0) ∧
      ∃ e, DirEntry.new [102, 111, 111] 7 = some e ∧
        e.name = [102, 111, 111] ++
          List.replicate (NAME_LENGTH_LIMIT + 1 - ([102, 111, 111] : List Nat).length) 0 ∧
        e.inode_number = 7 ∧ DirEntry.decodeName e = some [102, 111, 111] :=
  ⟨by decide, by decide, spec_c10_amended [102, 111, 111] 7 (by decide) (by decide)⟩

/-- Helper: `readBytes` returns exactly `len` bytes. -/
theorem readBytes_length (blk : Nat) (dd : DataDisk) :
    ∀ len off, (readBytes blk dd off len).length = len := by
  intro len
  induction len with
  | zero => intro off; rfl
  | succ n ih =>
    intro off
    show (dd blk off :: readBytes blk dd (off + 1) n).length = n + 1
    rw [List.length_cons, ih]

/-- Helper: the `read_at` chunk loop reads exactly `end_ - start` bytes,
appending them to the accumulator, whenever `start < end_`, the fuel covers
the remaining range, the chunk counter matches `start` and the range stays
within the pointer tree's capacity (so every `get_block_id` succeeds). -/
theorem readLoop_spec (st : DiskInode) (d : Disk) (dd : DataDisk) (end_ : Nat)
    (hend : end_ ≤ MAX_ADDRESSABLE_SIZE) :
    ∀ fuel start start_block read_size acc, start < end_ → end_ ≤ start + fuel →
      start_block = start / 512 →
      ∃ acc', readLoop st d dd end_ fuel start start_block read_size acc =
          some (read_size + (end_ - start), acc') ∧
        acc'.length = acc.length + (end_ - start) := by
  rw [MAX_ADDRESSABLE_SIZE_eq] at hend
  intro fuel
  induction fuel with
  | zero => intro start _ _ _ h1 h2 _; omega
  | succ fuel ih =>
    intro start start_block read_size acc h1 h2 hsb
    subst hsb
    rw [readLoop_succ]
    simp only [BLOCK_SZ_eq]
    obtain ⟨blk, hblk⟩ := getBlockId_some st d (start / 512)
      (by rw [INDIRECT2_BOUND_eq, INODE_INDIRECT3_COUNT_eq]; omega)
    rw [hblk]
    simp only [Option.some_bind]
    by_cases hendc : min ((start / 512 + 1) * 512) end_ = end_
    · rw [hendc, if_pos rfl]
      refine ⟨_, rfl, ?_⟩
      rw [List.length_append, readBytes_length]
    · rw [if_neg hendc]
      obtain ⟨acc', heq, hlen⟩ := ih (min ((start / 512 + 1) * 512) end_) (start / 512 + 1)
        (read_size + (min ((start / 512 + 1) * 512) end_ - start))
        (acc ++ readBytes blk dd (start % 512)
          (min ((start / 512 + 1) * 512) end_ - start))
        (by omega) (by omega) (by omega)
      have harith : read_size + (min ((start / 512 + 1) * 512) end_ - start) +
          (end_ - min ((start / 512 + 1) * 512) end_) = read_size + (end_ - start) := by
        omega
      rw [harith] at heq
      refine ⟨acc', heq, ?_⟩
      rw [hlen, List.length_append, readBytes_length]
      omega

/-- C8: for every inode within the addressable capacity, `read_at` clips the
request to the intersection with the file: it returns 0 when the offset is
at or past the size, and otherwise `min bufLen (size - offset)`, which is
also the number of bytes copied. -/
theorem spec_c8 (st : DiskInode) (d : Disk) (dd : DataDisk) (offset bufLen : Nat)
    (hsize : st.size ≤ MAX_ADDRESSABLE_SIZE) :
    ∃ bytes, readAt st d dd offset bufLen = some (min bufLen (st.size - offset), bytes) ∧
      bytes.length = min bufLen (st.size - offset) := by
  unfold readAt
  simp only [BLOCK_SZ_eq, ge_iff_le]
  by_cases hempty : min (offset + bufLen) st.size ≤ offset
  · rw [if_pos hempty]
    have h0 : min bufLen (st.size - offset) = 0 := by omega
    rw [h0]
    exact ⟨[], rfl, rfl⟩
  · rw [if_neg hempty]
    obtain ⟨acc', heq, hlen⟩ := readLoop_spec st d dd (min (offset + bufLen) st.size)
      (by omega) (min (offset + bufLen) st.size - offset) offset (offset / 512) 0 []
      (by omega) (by omega) rfl
    have harith : 0 + (min (offset + bufLen) st.size - offset) =
        min bufLen (st.size - offset) := by omega
    rw [harith] at heq
    refine ⟨acc', heq, ?_⟩
    rw [hlen, List.length_nil]
    omega

/-- Witness for C8 at a concrete inode of size 100: reading 5 bytes at
offset 0 returns exactly 5 bytes. -/
theorem spec_c8_witness :
    ({ size := 100, direct := fun _ => 0, indirect1 := 0, indirect2 := 0, indirect3 := 0, isDirectory := false } : DiskInode).size ≤ MAX_ADDRESSABLE_SIZE ∧
      ∃ bytes, readAt { size := 100, direct := fun _ => 0, indirect1 := 0, indirect2 := 0, indirect3 := 0, isDirectory := false } zeroDisk zeroData 0 5 =
          some (min 5 (({ size := 100, direct := fun _ => 0, indirect1 := 0, indirect2 := 0, indirect3 := 0, isDirectory := false } : DiskInode).size - 0), bytes) ∧
        bytes.length = min 5 (({ size := 100, direct := fun _ => 0, indirect1 := 0, indirect2 := 0, indirect3 := 0, isDirectory := false } : DiskInode).size - 0) :=
  ⟨by decide, spec_c8 _ zeroDisk zeroData 0 5 (by decide)⟩

/-- Helper: any size within the addressable maximum spans at most
`27 + 128 + 128 ^ 2 + 128 ^ 3 = 2113691` data blocks. -/
theorem _data_blocks_le_max (ns : Nat) (h : ns ≤ MAX_ADDRESSABLE_SIZE) :
    _data_blocks ns ≤ 2113691 := by
  have hmax : MAX_ADDRESSABLE_SIZE = 1082209792 := rfl
  rw [hmax] at h
  unfold _data_blocks
  rw [BLOCK_SZ_eq]
  omega

/-- C1 (amended): within the addressable capacity, a sequence whose length
is exactly `blocks_num_needed(new_size)` is fully consumed by
`increase_size`, every draw succeeding.  Beyond the capacity this fails:
see the counterexample, where ids are left over. -/
theorem spec_c1_amended (st : DiskInode) (d : Disk) (ns : Nat) (l : List Nat) (n : Nat)
    (hns : ns ≤ MAX_ADDRESSABLE_SIZE) (hbnn : blocksNumNeeded st ns = some n)
    (hlen : l.length = n) :
    ∃ st' d', increaseSize st d ns l = some (st', d', []) := by
  unfold blocksNumNeeded at hbnn
  by_cases hle : st.size ≤ ns
  · rw [if_pos hle] at hbnn
    cases hbnn
    have h01 : _data_blocks st.size ≤ _data_blocks ns := _data_blocks_mono hle
    have hub : _data_blocks ns ≤ 2113691 := _data_blocks_le_max ns hns
    have hid := consumedTotal_eq_total_diff (_data_blocks st.size) (_data_blocks ns) h01 hub
    have hct : consumedTotal (_data_blocks st.size) (_data_blocks ns) =
        totalBlocks ns - totalBlocks st.size := by
      unfold totalBlocks
      omega
    obtain ⟨st', d', h⟩ := increaseSize_consumption st d ns l (by rw [hct]; omega)
    rw [hct, ← hlen, List.drop_length] at h
    exact ⟨st', d', h⟩
  · rw [if_neg hle] at hbnn
    cases hbnn

/-- Witness for C1: growing the empty inode to one block with the single
id 5 consumes the sequence exactly. -/
theorem spec_c1_amended_witness :
    512 ≤ MAX_ADDRESSABLE_SIZE ∧
      blocksNumNeeded (DiskInode.initialized false) 512 = some 1 ∧
      ([5] : List Nat).length = 1 ∧
      ∃ st' d', increaseSize (DiskInode.initialized false) zeroDisk 512 [5] =
        some (st', d', []) :=
  ⟨by decide, by decide, rfl,
    spec_c1_amended (DiskInode.initialized false) zeroDisk 512 [5] 1 (by decide)
      (by decide) rfl⟩

/-- C1 counterexample: one block past the addressable capacity (2113692 data
blocks, size 1082210304), `blocks_num_needed` asks for 2130337 ids but
`increase_size` consumes only 2130334 of them and returns with 3 ids left
unconsumed. -/
theorem spec_c1_counterexample :
    blocksNumNeeded (DiskInode.initialized false) 1082210304 = some 2130337 ∧
      ∃ st' d', increaseSize (DiskInode.initialized false) zeroDisk 1082210304
          (List.replicate 2130337 7) = some (st', d', List.replicate 3 7) := by
  constructor
  · decide
  · have hc : consumedTotal (_data_blocks (DiskInode.initialized false).size)
        (_data_blocks 1082210304) = 2130334 := by decide
    obtain ⟨st', d', h⟩ := increaseSize_consumption (DiskInode.initialized false) zeroDisk
      1082210304 (List.replicate 2130337 7)
      (by rw [hc, List.length_replicate]; omega)
    rw [hc] at h
    refine ⟨st', d', ?_⟩
    rw [h, List.drop_replicate]

/-- Helper: the direct-clearing loop of `clear_size` zeroes precisely the
slots it visits and leaves the others unchanged. -/
theorem clearDirect_dir (db : Nat) :
    ∀ fuel cur dir v, min db INODE_DIRECT_COUNT ≤ cur + fuel →
      ∀ i, (clearDirect db fuel cur dir v).1 i =
        if cur ≤ i ∧ i < min db INODE_DIRECT_COUNT then 0 else dir i := by
  intro fuel
  induction fuel with
  | zero =>
    intro cur dir v hfuel i
    show dir i = _
    rw [if_neg (by omega)]
  | succ fuel ih =>
    intro cur dir v hfuel i
    rw [clearDirect]
    by_cases hg : cur < min db INODE_DIRECT_COUNT
    · rw [if_pos hg]
      rw [ih (cur + 1) _ _ (by omega) i]
      split_ifs <;> omega
    · rw [if_neg hg]
      show dir i = _
      rw [if_neg (by omega)]

/-- Helper: below the direct bound `clear_size` touches only the direct
slots and the size. -/
theorem clearSize_small (st : DiskInode) (d : Disk)
    (h : ¬ _data_blocks st.size > INODE_DIRECT_COUNT) :
    clearSize st d =
      some ((clearDirect (_data_blocks st.size) (INODE_DIRECT_COUNT + 1) 0 st.direct []).2.2,
        { st with
          size := 0,
          direct := (clearDirect (_data_blocks st.size) (INODE_DIRECT_COUNT + 1) 0
            st.direct []).1 }, d) := by
  unfold clearSize clearSizeInd1
  rw [if_neg h]

/-- Helper: clearing an inode whose size is already 0 collects nothing and
changes nothing. -/
theorem clearSize_zero (s : DiskInode) (d : Disk) (hs : s.size = 0) :
    clearSize s d = some ([], s, d) := by
  obtain ⟨sz, dir, i1, i2, i3, tg⟩ := s
  have hsz : sz = 0 := hs
  subst hsz
  rw [clearSize_small _ _ (show ¬ _data_blocks (0 : Nat) > INODE_DIRECT_COUNT by decide)]
  rw [show ({ size := 0, direct := dir, indirect1 := i1, indirect2 := i2, indirect3 := i3, isDirectory := tg } : DiskInode).size = 0 from rfl]
  rw [show ({ size := 0, direct := dir, indirect1 := i1, indirect2 := i2, indirect3 := i3, isDirectory := tg } : DiskInode).direct = dir from rfl]
  rw [show (clearDirect (_data_blocks 0) (INODE_DIRECT_COUNT + 1) 0 dir []).2.2 = ([] : List Nat) from rfl]
  rw [show (clearDirect (_data_blocks 0) (INODE_DIRECT_COUNT + 1) 0 dir []).1 = dir from rfl]

/-- C2 (code bug): the `assert!(data_blocks <= INODE_INDIRECT3_COUNT)` of
`clear_size` is checked before the indirect2 tier's 16384 blocks are
subtracted, so `clear_size` panics on every inode of 2097308 data blocks
(size 1073821696, within the addressable maximum and hence reachable by
growth), whatever the pointer fields and the store hold: no id list is
returned and the growth/truncation round trip fails. -/
theorem spec_c2_bug :
    1073821696 ≤ MAX_ADDRESSABLE_SIZE ∧
      ∀ (dir : Nat → Nat) (i1 i2 i3 : Nat) (tag : Bool) (d : Disk),
        clearSize { size := 1073821696, direct := dir, indirect1 := i1, indirect2 := i2, indirect3 := i3, isDirectory := tag } d = none := by
  refine ⟨by decide, fun dir i1 i2 i3 tag d => ?_⟩
  unfold clearSize clearSizeInd1 clearSizeInd2 clearSizeInd3
  rw [show ({ size := 1073821696, direct := dir, indirect1 := i1, indirect2 := i2, indirect3 := i3, isDirectory := tag } : DiskInode).size = 1073821696 from rfl]
  rw [if_pos (show _data_blocks (1073821696 : Nat) > INODE_DIRECT_COUNT by decide)]
  rw [if_pos (show _data_blocks (1073821696 : Nat) - INODE_DIRECT_COUNT > INODE_INDIRECT1_COUNT by decide)]
  rw [if_neg (show ¬ (_data_blocks (1073821696 : Nat) - INODE_DIRECT_COUNT - INODE_INDIRECT1_COUNT ≤ INODE_INDIRECT3_COUNT) by decide)]

/-- C7: whenever `clear_size` returns, the inode is fully reset — size 0 and
every root pointer zero, given the pointer-cleanliness invariant satisfied
by every reachable inode — and an immediate second `clear_size` returns the
empty list and changes nothing. -/
theorem spec_c7 (st : DiskInode) (d : Disk) (v : List Nat) (st1 : DiskInode) (d1 : Disk)
    (hclean : pointersClean st) (h : clearSize st d = some (v, st1, d1)) :
    st1.size = 0 ∧ (∀ i, i < INODE_DIRECT_COUNT → st1.direct i = 0) ∧
      st1.indirect1 = 0 ∧ st1.indirect2 = 0 ∧ st1.indirect3 = 0 ∧
      clearSize st1 d1 = some ([], st1, d1) := by
  obtain ⟨hdir0, hi1, hi2, hi3⟩ := hclean
  have hdirF : ∀ i, i < INODE_DIRECT_COUNT →
      (clearDirect (_data_blocks st.size) (INODE_DIRECT_COUNT + 1) 0 st.direct []).1 i = 0 := by
    intro i hi
    rw [clearDirect_dir (_data_blocks st.size) (INODE_DIRECT_COUNT + 1) 0 st.direct []
      (by rw [INODE_DIRECT_COUNT_eq]; omega) i]
    by_cases hlt : i < min (_data_blocks st.size) INODE_DIRECT_COUNT
    · rw [if_pos (show 0 ≤ i ∧ i < min (_data_blocks st.size) INODE_DIRECT_COUNT from
        ⟨Nat.zero_le i, hlt⟩)]
    · rw [if_neg (fun hc => hlt hc.2)]
      refine hdir0 i hi ?_
      rw [INODE_DIRECT_COUNT_eq] at hlt hi
      omega
  unfold clearSize clearSizeInd1 at h
  by_cases hc1 : _data_blocks st.size > INODE_DIRECT_COUNT
  · rw [if_pos hc1] at h
    unfold clearSizeInd2 at h
    by_cases hc2 : _data_blocks st.size - INODE_DIRECT_COUNT > INODE_INDIRECT1_COUNT
    · rw [if_pos hc2] at h
      unfold clearSizeInd3 at h
      by_cases hc3 : _data_blocks st.size - INODE_DIRECT_COUNT - INODE_INDIRECT1_COUNT ≤
          INODE_INDIRECT3_COUNT
      · rw [if_pos hc3] at h
        by_cases hc4 : _data_blocks st.size - INODE_DIRECT_COUNT - INODE_INDIRECT1_COUNT >
            INODE_INDIRECT2_COUNT
        · rw [if_pos hc4] at h
          simp only [Option.some.injEq, Prod.mk.injEq] at h
          obtain ⟨hv, hst, hd⟩ := h
          subst hst
          subst hd
          exact ⟨rfl, fun i hi => hdirF i hi, rfl, rfl, rfl, clearSize_zero _ _ rfl⟩
        · rw [if_neg hc4] at h
          simp only [Option.some.injEq, Prod.mk.injEq] at h
          obtain ⟨hv, hst, hd⟩ := h
          subst hst
          subst hd
          refine ⟨rfl, fun i hi => hdirF i hi, rfl, rfl, ?_, clearSize_zero _ _ rfl⟩
          show st.indirect3 = 0
          refine hi3 ?_
          rw [INODE_DIRECT_COUNT_eq, INODE_INDIRECT1_COUNT_eq, INODE_INDIRECT2_COUNT_eq] at hc4
          rw [INDIRECT2_BOUND_eq]
          omega
      · rw [if_neg hc3] at h
        cases h
    · rw [if_neg hc2] at h
      simp only [Option.some.injEq, Prod.mk.injEq] at h
      obtain ⟨hv, hst, hd⟩ := h
      subst hst
      subst hd
      refine ⟨rfl, fun i hi => hdirF i hi, rfl, ?_, ?_, clearSize_zero _ _ rfl⟩
      · show st.indirect2 = 0
        refine hi2 ?_
        rw [INODE_DIRECT_COUNT_eq, INODE_INDIRECT1_COUNT_eq] at hc2
        rw [INDIRECT1_BOUND_eq]
        omega
      · show st.indirect3 = 0
        refine hi3 ?_
        rw [INODE_DIRECT_COUNT_eq, INODE_INDIRECT1_COUNT_eq] at hc2
        rw [INDIRECT2_BOUND_eq]
        omega
  · rw [if_neg hc1] at h
    simp only [Option.some.injEq, Prod.mk.injEq] at h
    obtain ⟨hv, hst, hd⟩ := h
    subst hst
    subst hd
    refine ⟨rfl, fun i hi => hdirF i hi, ?_, ?_, ?_, clearSize_zero _ _ rfl⟩
    · show st.indirect1 = 0
      exact hi1 (not_lt.mp hc1)
    · show st.indirect2 = 0
      refine hi2 ?_
      rw [INODE_DIRECT_COUNT_eq] at hc1
      rw [INDIRECT1_BOUND_eq]
      omega
    · show st.indirect3 = 0
      refine hi3 ?_
      rw [INODE_DIRECT_COUNT_eq] at hc1
      rw [INDIRECT2_BOUND_eq]
      omega

/-- Witness for C7 at the freshly initialized (empty, clean) inode. -/
theorem spec_c7_witness :
    pointersClean (DiskInode.initialized false) ∧
      clearSize (DiskInode.initialized false) zeroDisk =
        some ([], DiskInode.initialized false, zeroDisk) ∧
      ((DiskInode.initialized false).size = 0 ∧
        (∀ i, i < INODE_DIRECT_COUNT → (DiskInode.initialized false).direct i = 0) ∧
        (DiskInode.initialized false).indirect1 = 0 ∧
        (DiskInode.initialized false).indirect2 = 0 ∧
        (DiskInode.initialized false).indirect3 = 0 ∧
        clearSize (DiskInode.initialized false) zeroDisk =
          some ([], DiskInode.initialized false, zeroDisk)) :=
  ⟨by decide, clearSize_zero _ _ rfl,
    spec_c7 (DiskInode.initialized false) zeroDisk [] (DiskInode.initialized false) zeroDisk
      (by decide) (clearSize_zero _ _ rfl)⟩

end EasyFS
